import Mathlib

/-!
Shallow embedding of the session registry and message-routing engine of the
tcp/udp live-chat servers (`src/app/tcp_live_chat_server.cpp` and
`src/app/udp_live_chat_server.cpp`).

Modelling conventions:
* Text (usernames, messages, wire bytes) is `List Char`; `String.data` turns a
  literal into such a list.  `NetworkUtils.BytesToString`/`StringToBytes` are
  byte-for-byte identities, so bytes and strings are the same list.
* An `std::unordered_map` is an association list with unique keys; the list
  order stands for the (unspecified) iteration order of the map.
* Identities are `Nat`: the TCP client id, and an opaque key standing for the
  UDP `(ip, port)` pair (`NetworkAddressEqual` is componentwise equality, so
  the pair is only ever used as a key).
* Wall-clock `std::time(nullptr)` readings are a `Nat` parameter `now`.
* Outbound traffic is the list of `(identity, bytes)` pairs handed to
  `Send`/`SendTo`, in issue order.  A `fails : Nat → Bool` environment tells
  which destinations make the transport send throw; the model consults it
  exactly where the C++ control flow depends on a caught exception, and a
  throwing send delivers nothing.
* `difftime(now, last) > k` on non-negative `time_t` is `k < now - last` in
  truncated `Nat` subtraction (a clock that went backwards gives a negative
  double on the C++ side and `0` here; neither exceeds the threshold).
-/

namespace Chat

/-- Byte/character strings, as lists of characters. -/
abbrev Str := List Char

/-- `std::unordered_map` lookup: first entry with the given key. -/
def lookup (k : Nat) : List (Nat × α) → Option α
  | [] => none
  | p :: ps => if p.1 = k then some p.2 else lookup k ps

/-- `map[k] = v` on a present key replaces the entry in place; on an absent
key the entry is appended (the position of a fresh entry in the map's
iteration order is unspecified; we pick the end). -/
def setEntry (k : Nat) (v : α) : List (Nat × α) → List (Nat × α)
  | [] => [(k, v)]
  | p :: ps => if p.1 = k then (k, v) :: ps else p :: setEntry k v ps

/-- `map.erase(k)`: drops the entry with key `k`. -/
def eraseEntry (k : Nat) (m : List (Nat × α)) : List (Nat × α) :=
  m.filter (fun p => p.1 ≠ k)

/-- `getTimestamp()` returns `"[" + timestamp + "] "`; the timestamp core is
the parameter `ts`. -/
def fmtTs (ts : Str) : Str := '[' :: ts ++ "] ".data

/-- A timestamped server line: `getTimestamp() + body + "\n"`. -/
def fmtLine (ts body : Str) : Str := fmtTs ts ++ body ++ ['\n']

/-- `removeSpecialChars(str, chars)`: erase every occurrence of every
character of `chars` from `str`. -/
def stripChars (cs : Str) (s : Str) : Str := s.filter (fun c => !cs.contains c)

/-- The sanitizer set actually used at registration: the C++ call is
`removeSpecialChars(username, "\n\r\0")`, and the `std::string` built from
that C literal stops at the NUL, so only `'\n'` and `'\r'` are stripped. -/
def registerStripSet : Str := ['\n', '\r']

/-- The characters trimmed from the ends of a TCP username:
`find_first_not_of(" \t")` / `find_last_not_of(" \t")`. -/
def isSpaceTab (c : Char) : Bool := c = ' ' || c = '\t'

/-- Leading/trailing space-and-tab trim of the TCP registration name. -/
def trimWs (s : Str) : Str :=
  ((s.dropWhile isSpaceTab).reverse.dropWhile isSpaceTab).reverse

/-- `message.find(' ', 5)` followed by the two `substr` calls of the `/msg`
branch, applied to the part after the `"/msg "` prefix: split at the first
space, `none` when there is no space. -/
def splitAtFirstSpace : Str → Option (Str × Str)
  | [] => none
  | c :: cs =>
    if c = ' ' then some ([], cs)
    else (splitAtFirstSpace cs).map (fun p => (c :: p.1, p.2))

/-- One `Send`/`SendTo` wrapped in its own try/catch (`sendToClient`): a
throwing destination delivers nothing and the caller continues. -/
def sendGuard (fails : Nat → Bool) (a : Nat) (m : Str) : List (Nat × Str) :=
  if fails a then [] else [(a, m)]

end Chat

namespace Chat

-- ## TCP server (`tcp_live_chat_server.cpp`)

/-- The `Client` record of the TCP server (fields the registry logic reads;
`socketValid` is `client.socket && client.socket->IsValid()`). -/
structure TcpClient where
  username : Str
  authenticated : Bool
  socketValid : Bool
  lastActivity : Nat
deriving Repr, DecidableEq

/-- The default-constructed `Client`: no socket, not authenticated. -/
def tcpDefaultClient : TcpClient := ⟨[], false, false, 0⟩

/-- The TCP registry `std::unordered_map<int, Client>`. -/
abbrev TcpReg := List (Nat × TcpClient)

/-- `broadcastMessage(message, senderId)` (tcp_live_chat_server.cpp:108-122):
timestamped line to every entry other than the sender that is authenticated
and has a valid socket.  `excl = none` is the `-1` default. -/
def tcpBroadcast (ts body : Str) (excl : Option Nat) (reg : TcpReg) :
    List (Nat × Str) :=
  (reg.filter fun p =>
      excl ≠ some p.1 && p.2.authenticated && p.2.socketValid).map
    (fun p => (p.1, fmtLine ts body))

/-- Resolution of the registration name (tcp_live_chat_server.cpp:229-247):
strip `'\n'`/`'\r'` (the NUL of the `"\n\r\0"` literal is lost to C-string
truncation), trim spaces and tabs, and fall back to `"Guest" + clientId`. -/
def tcpResolveName (clientId : Nat) (raw : Str) : Str :=
  if trimWs (stripChars registerStripSet raw) = [] then
    "Guest".data ++ (Nat.repr clientId).data
  else trimWs (stripChars registerStripSet raw)

/-- The `lastActivity` update (tcp_live_chat_server.cpp:289-292):
`clients[clientId].lastActivity = std::time(nullptr)`.  `operator[]` on an
absent key default-inserts a `Client`, so an absent identity gains a fresh
unauthenticated entry. -/
def tcpTouch (id : Nat) (now : Nat) (reg : TcpReg) : TcpReg :=
  let c := (lookup id reg).getD tcpDefaultClient
  setEntry id { c with lastActivity := now } reg

/-- The authentication assignments (tcp_live_chat_server.cpp:249-256), again
through `operator[]`. -/
def tcpSetAuth (id : Nat) (u : Str) (now : Nat) (reg : TcpReg) : TcpReg :=
  let c := (lookup id reg).getD tcpDefaultClient
  setEntry id { c with username := u, authenticated := true, lastActivity := now } reg

/-- Registry-and-sends result of one modelled step. -/
structure TcpOut where
  reg : TcpReg
  sends : List (Nat × Str)
deriving Repr, DecidableEq

/-- The authentication phase of `handleClient`
(tcp_live_chat_server.cpp:226-264): resolve the name, mark authenticated,
broadcast the join notice excluding the new client, send the welcome line. -/
def tcpAuthStep (fails : Nat → Bool) (ts : Str) (now : Nat) (id : Nat)
    (raw : Str) (reg : TcpReg) : TcpOut :=
  let u := tcpResolveName id raw
  let reg' := tcpSetAuth id u now reg
  ⟨reg', tcpBroadcast ts (u ++ " has joined the chat".data) (some id) reg'
      ++ sendGuard fails id (fmtLine ts ("Welcome to the chat, ".data ++ u ++ ['!']))⟩

/-- `removeClient(clientId)` (tcp_live_chat_server.cpp:170-207): departure
broadcast (excluding the leaver) if authenticated with a non-empty name, then
erase. -/
def tcpRemoveClient (ts : Str) (id : Nat) (reg : TcpReg) : TcpOut :=
  match lookup id reg with
  | none => ⟨reg, []⟩
  | some c =>
    ⟨eraseEntry id reg,
      if c.authenticated && c.username ≠ [] then
        tcpBroadcast ts (c.username ++ " has left the chat".data) (some id) reg
      else []⟩

/-- `sendPrivateMessage(target, message, senderId)`
(tcp_live_chat_server.cpp:125-167).  Returns the `userFound` flag and the
delivered sends; a throwing send to the target aborts with `false`, a
throwing confirmation is caught and ignored. -/
def tcpSendPrivate (fails : Nat → Bool) (ts : Str) (target text : Str)
    (senderId : Nat) (reg : TcpReg) : Bool × List (Nat × Str) :=
  match lookup senderId reg with
  | none => (false, [])
  | some sc =>
    match reg.find? (fun p =>
        p.2.authenticated && p.2.username == target && p.2.socketValid) with
    | none => (false, [])
    | some t =>
      if fails t.1 then (false, [])
      else
        let s1 := [(t.1, fmtLine ts ("[Private from ".data ++ sc.username ++ "]: ".data ++ text))]
        if sc.socketValid && !fails senderId then
          (true, s1 ++ [(senderId, fmtLine ts ("[Private to ".data ++ target ++ "]: ".data ++ text))])
        else (true, s1)

/-- The `/users` reply of the TCP server (tcp_live_chat_server.cpp:305-317):
only authenticated entries are listed, and the reply carries no timestamp. -/
def tcpUsersReply (reg : TcpReg) : Str :=
  "Connected users:\n".data ++
    (reg.filter fun p => p.2.authenticated).flatMap
      (fun p => "- ".data ++ p.2.username ++ ['\n'])

/-- Result of one iteration of the TCP message loop: new registry, sends, and
whether the loop breaks (quit command, or a throwing direct send). -/
structure TcpStep where
  reg : TcpReg
  sends : List (Nat × Str)
  quit : Bool
deriving Repr, DecidableEq

/-- The in-loop message scrub set (tcp_live_chat_server.cpp:284-286): there
the three characters are erased by one `std::remove` call each, so NUL is
actually removed, unlike at registration. -/
def msgStripSet : Str := ['\n', '\r', Char.ofNat 0]

/-- One iteration of the message loop of `handleClient`
(tcp_live_chat_server.cpp:274-342): strip `'\n'`/`'\r'`/NUL from the received
bytes, update `lastActivity`, then dispatch.  `senderName` is the local
`username` variable captured at authentication (line 336 broadcasts it, not a
fresh registry read).  Direct sends to the client itself
(lines 317, 327, 332) are unguarded; a throw there is caught by the loop's
catch and breaks the loop. -/
def tcpDispatch (fails : Nat → Bool) (ts : Str) (now : Nat) (senderName : Str)
    (id : Nat) (raw : Str) (reg : TcpReg) : TcpStep :=
  let m := stripChars msgStripSet raw
  let reg' := tcpTouch id now reg
  if m = "/quit".data then ⟨reg', [], true⟩
  else if m = "/users".data then
    if fails id then ⟨reg', [], true⟩
    else ⟨reg', [(id, tcpUsersReply reg')], false⟩
  else if m.take 5 = "/msg ".data then
    match splitAtFirstSpace (m.drop 5) with
    | some (target, text) =>
      let r := tcpSendPrivate fails ts target text id reg'
      if r.1 then ⟨reg', r.2, false⟩
      else if fails id then ⟨reg', r.2, true⟩
      else ⟨reg', r.2 ++ [(id, fmtLine ts ("User ".data ++ target ++ " not found.".data))], false⟩
    | none =>
      if fails id then ⟨reg', [], true⟩
      else ⟨reg', [(id, fmtLine ts "Invalid private message format. Use /msg <username> <message>".data)], false⟩
  else ⟨reg', tcpBroadcast ts (senderName ++ ": ".data ++ m) (some id) reg', false⟩

/-- The accept path (tcp_live_chat_server.cpp:443-451): a fresh `Client` with
a valid socket, unauthenticated, `lastActivity = now` (client ids are fresh,
so `emplace` inserts). -/
def tcpAccept (id : Nat) (now : Nat) (reg : TcpReg) : TcpReg :=
  setEntry id ⟨[], false, true, now⟩ reg

/-- The stale-client scan of `monitorInactiveClients`
(tcp_live_chat_server.cpp:360-368): ids inactive for strictly more than 300
seconds. -/
def tcpStale (now : Nat) (reg : TcpReg) : List Nat :=
  (reg.filter fun p => 300 < now - p.2.lastActivity).map (·.1)

/-- One removal of the reaper loop (tcp_live_chat_server.cpp:370-385): a
"has timed out" broadcast with no exclusion (the stale client is still
present), then `removeClient`. -/
def tcpSweepStep (ts : Str) (acc : TcpOut) (id : Nat) : TcpOut :=
  let uname := match lookup id acc.reg with | some c => c.username | none => []
  let s1 := tcpBroadcast ts (uname ++ " has timed out".data) none acc.reg
  let r := tcpRemoveClient ts id acc.reg
  ⟨r.reg, acc.sends ++ s1 ++ r.sends⟩

/-- One full sweep of `monitorInactiveClients`
(tcp_live_chat_server.cpp:353-387), run every 30 seconds. -/
def tcpSweep (ts : Str) (now : Nat) (reg : TcpReg) : TcpOut :=
  (tcpStale now reg).foldl (tcpSweepStep ts) ⟨reg, []⟩

-- ## UDP server (`udp_live_chat_server.cpp`)

/-- The `UdpClient` record; the key of the registry map is the source
address, so the record itself only carries the name and the activity time. -/
structure UdpClient where
  username : Str
  lastActivity : Nat
deriving Repr, DecidableEq

/-- The UDP registry `std::unordered_map<NetworkAddress, UdpClient, ...>`. -/
abbrev UdpReg := List (Nat × UdpClient)

/-- `broadcastMessage(message, sender)` (udp_live_chat_server.cpp:129-152):
timestamped line to every entry whose address differs from the sender; there
is no authentication condition.  `excl = none` is the `nullptr` default. -/
def udpBroadcast (ts body : Str) (excl : Option Nat) (reg : UdpReg) :
    List (Nat × Str) :=
  (reg.filter fun p => excl ≠ some p.1).map (fun p => (p.1, fmtLine ts body))

/-- The guarded `lastActivity` update (udp_live_chat_server.cpp:250-255):
unlike the TCP side, absence is checked first, so this one is a no-op on an
absent address. -/
def udpTouch (a : Nat) (now : Nat) (reg : UdpReg) : UdpReg :=
  match lookup a reg with
  | some c => setEntry a { c with lastActivity := now } reg
  | none => reg

/-- `sendPrivateMessage(target, message, sender)`
(udp_live_chat_server.cpp:155-207).  The sender must resolve to a non-empty
username; the target search matches any entry by raw username equality.  Both
sends sit in one try block: a throwing target send aborts with `false` and no
delivery, a throwing confirmation aborts with `false` after the target was
already delivered. -/
def udpSendPrivate (fails : Nat → Bool) (ts : Str) (target text : Str)
    (sender : Nat) (reg : UdpReg) : Bool × List (Nat × Str) :=
  let senderName := match lookup sender reg with | some c => c.username | none => []
  if senderName = [] then (false, [])
  else
    match reg.find? (fun p => p.2.username == target) with
    | none => (false, [])
    | some t =>
      if fails t.1 then (false, [])
      else
        let s1 := [(t.1, fmtLine ts ("[Private from ".data ++ senderName ++ "]: ".data ++ text))]
        if fails sender then (false, s1)
        else (true, s1 ++ [(sender, fmtLine ts ("[Private to ".data ++ target ++ "]: ".data ++ text))])

/-- The `/users` reply of the UDP server (udp_live_chat_server.cpp:314-327):
every entry is listed (no authentication filter), no timestamp. -/
def udpUsersReply (reg : UdpReg) : Str :=
  "Connected users:\n".data ++
    reg.flatMap (fun p => "- ".data ++ p.2.username ++ ['\n'])

/-- Registry-and-sends result of one UDP datagram. -/
structure UdpOut where
  reg : UdpReg
  sends : List (Nat × Str)
deriving Repr, DecidableEq

/-- `handleMessage(message, clientAddr)` (udp_live_chat_server.cpp:248-384):
the guarded activity touch, then the command dispatch in source order
(`REGISTER:` prefix, `HEARTBEAT`, `/quit`, `/users`, `/msg ` with
`length() > 5`, plain message).  All direct replies go through the
exception-swallowing `sendToClient`. -/
def udpHandleMessage (fails : Nat → Bool) (ts : Str) (now : Nat) (m : Str)
    (src : Nat) (reg : UdpReg) : UdpOut :=
  let reg := udpTouch src now reg
  if m.take 9 = "REGISTER:".data then
    let uname := stripChars registerStripSet (m.drop 9)
    if (lookup src reg).isSome then ⟨reg, []⟩
    else
      let reg' := reg ++ [(src, ⟨uname, now⟩)]
      ⟨reg',
        sendGuard fails src (fmtLine ts ("Welcome to the chat, ".data ++ uname ++ ['!']))
        ++ sendGuard fails src (fmtLine ts "To send a private message, use: /msg <username> <message>".data)
        ++ udpBroadcast ts (uname ++ " has joined the chat".data) (some src) reg'⟩
  else if m = "HEARTBEAT".data then ⟨reg, []⟩
  else if m = "/quit".data then
    match lookup src reg with
    | none => ⟨reg, []⟩
    | some c =>
      let reg' := eraseEntry src reg
      if c.username = [] then ⟨reg', []⟩
      else ⟨reg', udpBroadcast ts (c.username ++ " has left the chat".data) (some src) reg'⟩
  else if m = "/users".data then ⟨reg, sendGuard fails src (udpUsersReply reg)⟩
  else if m.take 5 = "/msg ".data && 5 < m.length then
    match splitAtFirstSpace (m.drop 5) with
    | some (target, text) =>
      let uname := match lookup src reg with | some c => c.username | none => []
      if uname = [] then ⟨reg, []⟩
      else
        let r := udpSendPrivate fails ts target text src reg
        if r.1 then ⟨reg, r.2⟩
        else ⟨reg, r.2 ++ sendGuard fails src (fmtLine ts ("User ".data ++ target ++ " not found.".data))⟩
    | none =>
      ⟨reg, sendGuard fails src (fmtLine ts "Invalid private message format. Use /msg <username> <message>".data)⟩
  else
    let uname := match lookup src reg with | some c => c.username | none => []
    if uname = [] then
      ⟨reg, sendGuard fails src "Please register first with REGISTER:<username>".data⟩
    else ⟨reg, udpBroadcast ts (uname ++ ": ".data ++ m) (some src) reg⟩

/-- The stale-address scan of `removeInactiveClients`
(udp_live_chat_server.cpp:217-226): addresses inactive for strictly more than
120 seconds. -/
def udpStale (now : Nat) (reg : UdpReg) : List Nat :=
  (reg.filter fun p => 120 < now - p.2.lastActivity).map (·.1)

/-- One removal of the UDP reaper loop (udp_live_chat_server.cpp:228-243):
erase first, then broadcast "has timed out" over the remaining entries — and
only when the removed username is non-empty. -/
def udpSweepStep (ts : Str) (acc : UdpOut) (a : Nat) : UdpOut :=
  match lookup a acc.reg with
  | none => acc
  | some c =>
    let reg' := eraseEntry a acc.reg
    if c.username = [] then ⟨reg', acc.sends⟩
    else ⟨reg', acc.sends ++ udpBroadcast ts (c.username ++ " has timed out".data) none reg'⟩

/-- One full sweep of `removeInactiveClients`
(udp_live_chat_server.cpp:210-245), run every 30 seconds. -/
def udpSweep (ts : Str) (now : Nat) (reg : UdpReg) : UdpOut :=
  (udpStale now reg).foldl (udpSweepStep ts) ⟨reg, []⟩

-- ## Derived notions used by the statements

/-- A map has well-formed (duplicate-free) keys — the invariant every
`std::unordered_map` maintains. -/
def KeysNodup (m : List (Nat × α)) : Prop := (m.map Prod.fst).Nodup

/-- The spec's `authenticated` notion on the UDP side: the code treats an
entry with an empty username as unregistered (it is prompted to register and
cannot send), so a session counts as authenticated exactly when its username
is non-empty. -/
def udpAuthenticated (c : UdpClient) : Prop := c.username ≠ []

/-- A `Guest`-form display name: `"Guest" + N` for some numeral `N`. -/
def GuestName (u : Str) : Prop := ∃ n : Nat, u = "Guest".data ++ (Nat.repr n).data

/-- The registry invariant of the spec on the TCP side: authenticated entries
carry a non-empty display name. -/
def TcpInv (reg : TcpReg) : Prop :=
  ∀ p ∈ reg, p.2.authenticated = true → p.2.username ≠ []

/-- `lastActivity` does not decrease for identity `i` between two registry
states, as long as the identity is present in both. -/
def TcpMonoAt (pre post : TcpReg) (i : Nat) : Prop :=
  ∀ c c', lookup i pre = some c → lookup i post = some c' →
    c.lastActivity ≤ c'.lastActivity

/-- `lastActivity` does not decrease for address `a` between two UDP registry
states, as long as the address is present in both. -/
def UdpMonoAt (pre post : UdpReg) (a : Nat) : Prop :=
  ∀ c c', lookup a pre = some c → lookup a post = some c' →
    c.lastActivity ≤ c'.lastActivity

/-- Every recorded activity time in a TCP registry is at most `now`. -/
def TcpTimesLe (now : Nat) (reg : TcpReg) : Prop :=
  ∀ p ∈ reg, p.2.lastActivity ≤ now

/-- Every recorded activity time in a UDP registry is at most `now`. -/
def UdpTimesLe (now : Nat) (reg : UdpReg) : Prop :=
  ∀ p ∈ reg, p.2.lastActivity ≤ now

/-- All entries other than the one keyed `k` resolve identically in the two
maps. -/
def OthersEq (k : Nat) (pre post : List (Nat × α)) : Prop :=
  ∀ a, a ≠ k → lookup a post = lookup a pre

/-- Identity `id` is authenticated under display name `u` in the registry. -/
def AuthAs (reg : TcpReg) (id : Nat) (u : Str) : Prop :=
  ∃ c, lookup id reg = some c ∧ c.username = u ∧ c.authenticated = true

/-- A string free of the characters the TCP message loop scrubs. -/
def CleanStr (s : Str) : Prop := ∀ c ∈ s, msgStripSet.contains c = false

-- ## Association-list lemmas

theorem lookup_setEntry_self (k : Nat) (v : α) (m : List (Nat × α)) :
    lookup k (setEntry k v m) = some v := by
  induction m with
  | nil => simp [setEntry, lookup]
  | cons p ps ih =>
    by_cases h : p.1 = k <;> simp [setEntry, lookup, h, ih]

theorem lookup_setEntry_ne (k k' : Nat) (v : α) (m : List (Nat × α))
    (h : k' ≠ k) : lookup k' (setEntry k v m) = lookup k' m := by
  induction m with
  | nil => simp [setEntry, lookup, Ne.symm h]
  | cons p ps ih =>
    by_cases hp : p.1 = k
    · have hpk : p.1 ≠ k' := by rw [hp]; exact Ne.symm h
      simp [setEntry, lookup, hp, Ne.symm h, hpk]
    · by_cases hp' : p.1 = k' <;> simp [setEntry, lookup, hp, hp', ih, h]

theorem lookup_eraseEntry_self (k : Nat) (m : List (Nat × α)) :
    lookup k (eraseEntry k m) = none := by
  induction m with
  | nil => simp [eraseEntry, lookup]
  | cons p ps ih =>
    by_cases h : p.1 = k <;> simp_all [eraseEntry, lookup, List.filter]

theorem lookup_eraseEntry_ne (k k' : Nat) (m : List (Nat × α)) (h : k' ≠ k) :
    lookup k' (eraseEntry k m) = lookup k' m := by
  induction m with
  | nil => simp [eraseEntry, lookup]
  | cons p ps ih =>
    by_cases hp : p.1 = k
    · have : p.1 ≠ k' := by rw [hp]; exact fun hh => h hh.symm
      simp_all [eraseEntry, lookup, List.filter]
    · by_cases hp' : p.1 = k' <;> simp_all [eraseEntry, lookup, List.filter]

theorem lookup_append_of_some (k : Nat) (v : α) (m m' : List (Nat × α))
    (h : lookup k m = some v) : lookup k (m ++ m') = some v := by
  induction m with
  | nil => simp [lookup] at h
  | cons p ps ih =>
    by_cases hp : p.1 = k <;> simp_all [lookup]

theorem lookup_mem (k : Nat) (v : α) (m : List (Nat × α))
    (h : lookup k m = some v) : (k, v) ∈ m := by
  induction m with
  | nil => simp [lookup] at h
  | cons p ps ih =>
    by_cases hp : p.1 = k
    · simp [lookup, hp] at h
      refine List.mem_cons.mpr (Or.inl ?_)
      cases p
      simp_all
    · simp [lookup, hp] at h
      exact List.mem_cons_of_mem _ (ih h)

theorem lookup_eq_of_mem (k : Nat) (v : α) (m : List (Nat × α))
    (hnd : KeysNodup m) (h : (k, v) ∈ m) : lookup k m = some v := by
  induction m with
  | nil => simp at h
  | cons p ps ih =>
    rcases List.mem_cons.mp h with h1 | h2
    · simp [lookup, ← h1]
    · have hk : p.1 ≠ k := by
        intro he
        have : k ∈ ps.map Prod.fst := List.mem_map.mpr ⟨(k, v), h2, rfl⟩
        have := (List.nodup_cons.mp hnd).1
        rw [he] at this
        exact this ‹k ∈ ps.map Prod.fst›
      have := ih (List.nodup_cons.mp hnd).2 h2
      simp [lookup, hk, this]

theorem lookup_eq_none_of_forall (k : Nat) (m : List (Nat × α))
    (h : ∀ p ∈ m, p.1 ≠ k) : lookup k m = none := by
  induction m with
  | nil => rfl
  | cons p ps ih =>
    have := h p (List.mem_cons_self p ps)
    simp only [lookup, this, if_false]
    exact ih (fun q hq => h q (List.mem_cons_of_mem _ hq))

theorem lookup_of_eraseEntry_some (k k' : Nat) (v : α) (m : List (Nat × α))
    (h : lookup k (eraseEntry k' m) = some v) : lookup k m = some v := by
  by_cases he : k = k'
  · rw [he, lookup_eraseEntry_self] at h; exact absurd h (by simp)
  · rwa [lookup_eraseEntry_ne _ _ _ he] at h

theorem lookup_append_right_of_none (k : Nat) (m m' : List (Nat × α))
    (h : lookup k m = none) : lookup k (m ++ m') = lookup k m' := by
  induction m with
  | nil => rfl
  | cons p ps ih =>
    by_cases hp : p.1 = k
    · simp [lookup, hp] at h
    · simp only [lookup, hp, if_neg] at h ⊢
      simp only [List.cons_append, lookup, hp, if_neg, if_false]
      exact ih h

theorem udpTouch_absent (a now : Nat) (reg : UdpReg)
    (h : lookup a reg = none) : udpTouch a now reg = reg := by
  unfold udpTouch
  rw [h]

theorem lookup_eraseEntry_none (k k' : Nat) (m : List (Nat × α))
    (h : lookup k m = none) : lookup k (eraseEntry k' m) = none := by
  by_cases he : k = k'
  · rw [he, lookup_eraseEntry_self]
  · rwa [lookup_eraseEntry_ne _ _ _ he]

theorem mem_unique_of_nodup (k : Nat) (v v' : α) (m : List (Nat × α))
    (hnd : KeysNodup m) (h : (k, v) ∈ m) (h' : (k, v') ∈ m) : v = v' := by
  have e1 := lookup_eq_of_mem k v m hnd h
  have e2 := lookup_eq_of_mem k v' m hnd h'
  rw [e1] at e2
  exact (Option.some.injEq _ _).mp e2

-- ## String-processing lemmas

theorem stripChars_eq_self (cs s : Str) (h : ∀ c ∈ s, cs.contains c = false) :
    stripChars cs s = s :=
  List.filter_eq_self.mpr (fun c hc => by rw [h c hc]; rfl)

theorem splitAtFirstSpace_append (t x : Str) (h : ' ' ∉ t) :
    splitAtFirstSpace (t ++ ' ' :: x) = some (t, x) := by
  induction t with
  | nil => simp [splitAtFirstSpace]
  | cons c cs ih =>
    have hc : ¬ c = ' ' := fun hh => h (hh ▸ List.mem_cons_self c cs)
    have hcs : ' ' ∉ cs := fun hh => h (List.mem_cons_of_mem _ hh)
    simp [splitAtFirstSpace, hc, ih hcs]

theorem splitAtFirstSpace_none (s : Str) (h : ' ' ∉ s) :
    splitAtFirstSpace s = none := by
  induction s with
  | nil => rfl
  | cons c cs ih =>
    have hc : ¬ c = ' ' := fun hh => h (hh ▸ List.mem_cons_self c cs)
    have hcs : ' ' ∉ cs := fun hh => h (List.mem_cons_of_mem _ hh)
    simp [splitAtFirstSpace, hc, ih hcs]

theorem trimWs_eq_nil (s : Str) (h : ∀ c ∈ s, isSpaceTab c = true) :
    trimWs s = [] := by
  have h1 : s.dropWhile isSpaceTab = [] := List.dropWhile_eq_nil_iff.mpr h
  simp [trimWs, h1]

theorem take_pref (a b : Str) : (a ++ b).take a.length = a := List.take_left a b

theorem drop_pref (a b : Str) : (a ++ b).drop a.length = b := List.drop_left a b

-- ## Broadcast delivery characterizations

theorem mem_tcpBroadcast (ts body : Str) (excl : Option Nat) (reg : TcpReg)
    (i : Nat) (m : Str) :
    (i, m) ∈ tcpBroadcast ts body excl reg ↔
      m = fmtLine ts body ∧
        ∃ c, (i, c) ∈ reg ∧ c.authenticated = true ∧ c.socketValid = true ∧
          excl ≠ some i := by
  constructor
  · intro h
    rcases List.mem_map.mp h with ⟨p, hp, he⟩
    rcases List.mem_filter.mp hp with ⟨hmem, hcond⟩
    simp only [Bool.and_eq_true, decide_eq_true_eq] at hcond
    obtain ⟨⟨hex, ha⟩, hv⟩ := hcond
    obtain ⟨hi, hm⟩ := Prod.mk.injEq .. ▸ he
    refine ⟨hm.symm, p.2, ?_, ha, hv, hi ▸ hex⟩
    rw [← hi]
    exact hmem
  · rintro ⟨hm, c, hmem, ha, hv, hex⟩
    refine List.mem_map.mpr ⟨(i, c), List.mem_filter.mpr ⟨hmem, ?_⟩, by rw [hm]⟩
    simp [ha, hv, hex]

theorem mem_udpBroadcast (ts body : Str) (excl : Option Nat) (reg : UdpReg)
    (a : Nat) (m : Str) :
    (a, m) ∈ udpBroadcast ts body excl reg ↔
      m = fmtLine ts body ∧ ∃ c, (a, c) ∈ reg ∧ excl ≠ some a := by
  constructor
  · intro h
    rcases List.mem_map.mp h with ⟨p, hp, he⟩
    rcases List.mem_filter.mp hp with ⟨hmem, hcond⟩
    simp only [decide_eq_true_eq] at hcond
    obtain ⟨hi, hm⟩ := Prod.mk.injEq .. ▸ he
    refine ⟨hm.symm, p.2, ?_, hi ▸ hcond⟩
    rw [← hi]
    exact hmem
  · rintro ⟨hm, c, hmem, hex⟩
    refine List.mem_map.mpr ⟨(a, c), List.mem_filter.mpr ⟨hmem, ?_⟩, by rw [hm]⟩
    simp [hex]

-- ## Reaper-sweep bookkeeping lemmas

theorem tcpRemoveClient_lookup_some (ts : Str) (id i : Nat) (reg : TcpReg)
    (c : TcpClient) (h : lookup i (tcpRemoveClient ts id reg).reg = some c) :
    lookup i reg = some c := by
  unfold tcpRemoveClient at h
  cases hl : lookup id reg with
  | none => rw [hl] at h; exact h
  | some c0 => rw [hl] at h; exact lookup_of_eraseEntry_some _ _ _ _ h

theorem tcpRemoveClient_lookup_none (ts : Str) (id i : Nat) (reg : TcpReg)
    (h : lookup i reg = none) :
    lookup i (tcpRemoveClient ts id reg).reg = none := by
  unfold tcpRemoveClient
  cases hl : lookup id reg with
  | none => exact h
  | some c0 => exact lookup_eraseEntry_none _ _ _ h

theorem tcpSweepStep_lookup_some (ts : Str) (acc : TcpOut) (a i : Nat)
    (c : TcpClient) (h : lookup i (tcpSweepStep ts acc a).reg = some c) :
    lookup i acc.reg = some c := by
  unfold tcpSweepStep at h
  exact tcpRemoveClient_lookup_some _ _ _ _ _ h

theorem tcpSweepStep_lookup_none (ts : Str) (acc : TcpOut) (a i : Nat)
    (h : lookup i acc.reg = none) :
    lookup i (tcpSweepStep ts acc a).reg = none := by
  unfold tcpSweepStep
  exact tcpRemoveClient_lookup_none _ _ _ _ h

theorem tcpSweepFold_lookup_none (ts : Str) (l : List Nat) (acc : TcpOut)
    (i : Nat) (h : lookup i acc.reg = none) :
    lookup i (l.foldl (tcpSweepStep ts) acc).reg = none := by
  induction l generalizing acc with
  | nil => exact h
  | cons a l' ih => exact ih _ (tcpSweepStep_lookup_none ts acc a i h)

theorem tcpSweepStep_lookup_self (ts : Str) (acc : TcpOut) (i : Nat) :
    lookup i (tcpSweepStep ts acc i).reg = none := by
  unfold tcpSweepStep tcpRemoveClient
  cases hl : lookup i acc.reg with
  | none => exact hl
  | some c0 => exact lookup_eraseEntry_self _ _

theorem tcpSweepFold_removes (ts : Str) (l : List Nat) (acc : TcpOut) (i : Nat)
    (h : i ∈ l) : lookup i (l.foldl (tcpSweepStep ts) acc).reg = none := by
  induction l generalizing acc with
  | nil => simp at h
  | cons a l' ih =>
    rcases List.mem_cons.mp h with h1 | h2
    · subst h1
      exact tcpSweepFold_lookup_none ts l' _ i (tcpSweepStep_lookup_self ts acc i)
    · exact ih _ h2

theorem tcpSweepStep_lookup_other (ts : Str) (acc : TcpOut) (a i : Nat)
    (h : a ≠ i) : lookup i (tcpSweepStep ts acc a).reg = lookup i acc.reg := by
  unfold tcpSweepStep tcpRemoveClient
  cases hl : lookup a acc.reg with
  | none => rfl
  | some c0 => exact lookup_eraseEntry_ne _ _ _ (fun hh => h hh.symm)

theorem tcpSweepFold_keeps (ts : Str) (l : List Nat) (acc : TcpOut) (i : Nat)
    (h : ∀ a ∈ l, a ≠ i) :
    lookup i (l.foldl (tcpSweepStep ts) acc).reg = lookup i acc.reg := by
  induction l generalizing acc with
  | nil => rfl
  | cons a l' ih =>
    rw [List.foldl_cons, ih _ (fun b hb => h b (List.mem_cons_of_mem _ hb))]
    exact tcpSweepStep_lookup_other ts acc a i (h a (List.mem_cons_self a l'))

theorem udpSweepStep_lookup_some (ts : Str) (acc : UdpOut) (a i : Nat)
    (c : UdpClient) (h : lookup i (udpSweepStep ts acc a).reg = some c) :
    lookup i acc.reg = some c := by
  unfold udpSweepStep at h
  cases hl : lookup a acc.reg with
  | none => rw [hl] at h; exact h
  | some c0 =>
    rw [hl] at h
    by_cases hu : c0.username = []
    · simp only [hu, if_pos rfl] at h
      exact lookup_of_eraseEntry_some _ _ _ _ h
    · simp only [if_neg hu] at h
      exact lookup_of_eraseEntry_some _ _ _ _ h

theorem udpSweepStep_lookup_none (ts : Str) (acc : UdpOut) (a i : Nat)
    (h : lookup i acc.reg = none) :
    lookup i (udpSweepStep ts acc a).reg = none := by
  unfold udpSweepStep
  cases hl : lookup a acc.reg with
  | none => exact h
  | some c0 =>
    by_cases hu : c0.username = [] <;>
      simp only [hu, if_pos, if_neg, if_true, if_false] <;>
      exact lookup_eraseEntry_none _ _ _ h

theorem udpSweepFold_lookup_none (ts : Str) (l : List Nat) (acc : UdpOut)
    (i : Nat) (h : lookup i acc.reg = none) :
    lookup i (l.foldl (udpSweepStep ts) acc).reg = none := by
  induction l generalizing acc with
  | nil => exact h
  | cons a l' ih => exact ih _ (udpSweepStep_lookup_none ts acc a i h)

theorem udpSweepStep_lookup_self (ts : Str) (acc : UdpOut) (i : Nat) :
    lookup i (udpSweepStep ts acc i).reg = none := by
  unfold udpSweepStep
  cases hl : lookup i acc.reg with
  | none => exact hl
  | some c0 =>
    by_cases hu : c0.username = [] <;>
      simp only [hu, if_pos, if_neg, if_true, if_false] <;>
      exact lookup_eraseEntry_self _ _

theorem udpSweepFold_removes (ts : Str) (l : List Nat) (acc : UdpOut) (i : Nat)
    (h : i ∈ l) : lookup i (l.foldl (udpSweepStep ts) acc).reg = none := by
  induction l generalizing acc with
  | nil => simp at h
  | cons a l' ih =>
    rcases List.mem_cons.mp h with h1 | h2
    · subst h1
      exact udpSweepFold_lookup_none ts l' _ i (udpSweepStep_lookup_self ts acc i)
    · exact ih _ h2

theorem udpSweepStep_lookup_other (ts : Str) (acc : UdpOut) (a i : Nat)
    (h : a ≠ i) : lookup i (udpSweepStep ts acc a).reg = lookup i acc.reg := by
  unfold udpSweepStep
  cases hl : lookup a acc.reg with
  | none => rfl
  | some c0 =>
    by_cases hu : c0.username = [] <;>
      simp only [hu, if_pos, if_neg, if_true, if_false] <;>
      exact lookup_eraseEntry_ne _ _ _ (fun hh => h hh.symm)

theorem udpSweepFold_keeps (ts : Str) (l : List Nat) (acc : UdpOut) (i : Nat)
    (h : ∀ a ∈ l, a ≠ i) :
    lookup i (l.foldl (udpSweepStep ts) acc).reg = lookup i acc.reg := by
  induction l generalizing acc with
  | nil => rfl
  | cons a l' ih =>
    rw [List.foldl_cons, ih _ (fun b hb => h b (List.mem_cons_of_mem _ hb))]
    exact udpSweepStep_lookup_other ts acc a i (h a (List.mem_cons_self a l'))

-- ## Invariant and monotonicity helper lemmas

theorem mem_setEntry (k : Nat) (v : α) (m : List (Nat × α)) :
    ∀ p ∈ setEntry k v m, p = (k, v) ∨ p ∈ m := by
  induction m with
  | nil => intro p hp; simp [setEntry] at hp; exact Or.inl hp
  | cons q qs ih =>
    intro p hp
    by_cases hq : q.1 = k
    · simp only [setEntry, hq, if_pos] at hp
      rcases List.mem_cons.mp hp with h | h
      · exact Or.inl h
      · exact Or.inr (List.mem_cons_of_mem _ h)
    · simp only [setEntry, hq, if_neg, if_false] at hp
      rcases List.mem_cons.mp hp with h | h
      · exact Or.inr (h ▸ List.mem_cons_self q qs)
      · rcases ih p h with h' | h'
        · exact Or.inl h'
        · exact Or.inr (List.mem_cons_of_mem _ h')

theorem tcpInv_setEntry (k : Nat) (v : TcpClient) (m : TcpReg)
    (h : TcpInv m) (hv : v.authenticated = true → v.username ≠ []) :
    TcpInv (setEntry k v m) := by
  intro p hp ha
  rcases mem_setEntry k v m p hp with h' | h'
  · rw [h'] at ha ⊢
    exact hv ha
  · exact h p h' ha

theorem tcpInv_touch (id now : Nat) (reg : TcpReg) (h : TcpInv reg) :
    TcpInv (tcpTouch id now reg) := by
  unfold tcpTouch
  apply tcpInv_setEntry _ _ _ h
  intro ha
  cases hl : lookup id reg with
  | none =>
    rw [hl] at ha
    simp [tcpDefaultClient] at ha
  | some c =>
    rw [hl] at ha
    simp only [Option.getD_some] at ha ⊢
    exact h (id, c) (lookup_mem _ _ _ hl) ha

theorem tcpResolveName_ne_nil (id : Nat) (raw : Str) :
    tcpResolveName id raw ≠ [] := by
  unfold tcpResolveName
  split
  · intro h
    rw [show "Guest".data = 'G' :: "uest".data from rfl, List.cons_append] at h
    exact List.noConfusion h
  · next hc => exact hc

theorem tcpInv_authStep (fails : Nat → Bool) (ts : Str) (now id : Nat)
    (raw : Str) (reg : TcpReg) (h : TcpInv reg) :
    TcpInv (tcpAuthStep fails ts now id raw reg).reg := by
  apply tcpInv_setEntry _ _ _ h
  intro
  exact tcpResolveName_ne_nil id raw

theorem tcpInv_accept (id now : Nat) (reg : TcpReg) (h : TcpInv reg) :
    TcpInv (tcpAccept id now reg) := by
  apply tcpInv_setEntry _ _ _ h
  intro ha
  simp at ha

theorem tcpInv_eraseEntry (k : Nat) (reg : TcpReg) (h : TcpInv reg) :
    TcpInv (eraseEntry k reg) :=
  fun p hp => h p (List.mem_of_mem_filter hp)

theorem tcpInv_removeClient (ts : Str) (id : Nat) (reg : TcpReg)
    (h : TcpInv reg) : TcpInv (tcpRemoveClient ts id reg).reg := by
  unfold tcpRemoveClient
  cases hl : lookup id reg with
  | none => exact h
  | some c => exact tcpInv_eraseEntry _ _ h

theorem tcpInv_sweepFold (ts : Str) (l : List Nat) (acc : TcpOut)
    (h : TcpInv acc.reg) : TcpInv (l.foldl (tcpSweepStep ts) acc).reg := by
  induction l generalizing acc with
  | nil => exact h
  | cons a l' ih =>
    apply ih
    unfold tcpSweepStep
    exact tcpInv_removeClient _ _ _ h

theorem tcpInv_sweep (ts : Str) (now : Nat) (reg : TcpReg) (h : TcpInv reg) :
    TcpInv (tcpSweep ts now reg).reg :=
  tcpInv_sweepFold ts _ _ h

theorem tcpDispatch_reg (fails : Nat → Bool) (ts : Str) (now : Nat)
    (sname : Str) (id : Nat) (raw : Str) (reg : TcpReg) :
    (tcpDispatch fails ts now sname id raw reg).reg = tcpTouch id now reg := by
  simp only [tcpDispatch]
  repeat' split
  all_goals rfl

theorem tcpMonoAt_setEntry (reg : TcpReg) (k : Nat) (v : TcpClient) (i : Nat)
    (hv : ∀ cc, lookup i reg = some cc → i = k →
      cc.lastActivity ≤ v.lastActivity) :
    TcpMonoAt reg (setEntry k v reg) i := by
  intro c c' h1 h2
  by_cases hik : i = k
  · subst hik
    rw [lookup_setEntry_self] at h2
    injection h2 with he
    rw [← he]
    exact hv c h1 rfl
  · rw [lookup_setEntry_ne _ _ _ _ hik, h1] at h2
    injection h2 with he
    rw [he]

theorem tcpMonoAt_of_sub (pre post : TcpReg) (i : Nat)
    (h : ∀ c, lookup i post = some c → lookup i pre = some c) :
    TcpMonoAt pre post i := by
  intro c c' h1 h2
  have h3 := h c' h2
  rw [h1] at h3
  injection h3 with he
  rw [he]

theorem tcpMono_touch (id now i : Nat) (reg : TcpReg)
    (hla : TcpTimesLe now reg) : TcpMonoAt reg (tcpTouch id now reg) i := by
  unfold tcpTouch
  apply tcpMonoAt_setEntry
  intro cc h1 _
  exact hla (i, cc) (lookup_mem _ _ _ h1)

theorem tcpMono_authStep (fails : Nat → Bool) (ts : Str) (now id i : Nat)
    (raw : Str) (reg : TcpReg) (hla : TcpTimesLe now reg) :
    TcpMonoAt reg (tcpAuthStep fails ts now id raw reg).reg i := by
  apply tcpMonoAt_setEntry
  intro cc h1 _
  exact hla (i, cc) (lookup_mem _ _ _ h1)

theorem tcpMono_accept (id now i : Nat) (reg : TcpReg)
    (hla : TcpTimesLe now reg) : TcpMonoAt reg (tcpAccept id now reg) i := by
  apply tcpMonoAt_setEntry
  intro cc h1 _
  exact hla (i, cc) (lookup_mem _ _ _ h1)

theorem tcpMono_dispatch (fails : Nat → Bool) (ts : Str) (now : Nat)
    (sname : Str) (id i : Nat) (raw : Str) (reg : TcpReg)
    (hla : TcpTimesLe now reg) :
    TcpMonoAt reg (tcpDispatch fails ts now sname id raw reg).reg i := by
  rw [tcpDispatch_reg]
  exact tcpMono_touch id now i reg hla

theorem tcpMono_removeClient (ts : Str) (id i : Nat) (reg : TcpReg) :
    TcpMonoAt reg (tcpRemoveClient ts id reg).reg i :=
  tcpMonoAt_of_sub _ _ _ (fun c h => tcpRemoveClient_lookup_some ts id i reg c h)

theorem tcpSweepFold_lookup_some (ts : Str) (l : List Nat) (acc : TcpOut)
    (i : Nat) (c : TcpClient)
    (h : lookup i (l.foldl (tcpSweepStep ts) acc).reg = some c) :
    lookup i acc.reg = some c := by
  induction l generalizing acc with
  | nil => exact h
  | cons a l' ih => exact tcpSweepStep_lookup_some ts acc a i c (ih _ h)

theorem tcpMono_sweep (ts : Str) (now i : Nat) (reg : TcpReg) :
    TcpMonoAt reg (tcpSweep ts now reg).reg i :=
  tcpMonoAt_of_sub _ _ _ (fun c h => tcpSweepFold_lookup_some ts _ _ i c h)

theorem udpMonoAt_setEntry (reg : UdpReg) (k : Nat) (v : UdpClient) (i : Nat)
    (hv : ∀ cc, lookup i reg = some cc → i = k →
      cc.lastActivity ≤ v.lastActivity) :
    UdpMonoAt reg (setEntry k v reg) i := by
  intro c c' h1 h2
  by_cases hik : i = k
  · subst hik
    rw [lookup_setEntry_self] at h2
    injection h2 with he
    rw [← he]
    exact hv c h1 rfl
  · rw [lookup_setEntry_ne _ _ _ _ hik, h1] at h2
    injection h2 with he
    rw [he]

theorem udpMonoAt_of_sub (pre post : UdpReg) (i : Nat)
    (h : ∀ c, lookup i post = some c → lookup i pre = some c) :
    UdpMonoAt pre post i := by
  intro c c' h1 h2
  have h3 := h c' h2
  rw [h1] at h3
  injection h3 with he
  rw [he]

theorem udpMono_touch (src now a : Nat) (reg : UdpReg)
    (hla : UdpTimesLe now reg) : UdpMonoAt reg (udpTouch src now reg) a := by
  unfold udpTouch
  cases hl : lookup src reg with
  | none => exact fun c c' h1 h2 => by rw [h1] at h2; injection h2 with he; rw [he]
  | some c0 =>
    apply udpMonoAt_setEntry
    intro cc h1 _
    exact hla (a, cc) (lookup_mem _ _ _ h1)

theorem lookup_udpTouch_ne (a src now : Nat) (reg : UdpReg) (h : a ≠ src) :
    lookup a (udpTouch src now reg) = lookup a reg := by
  unfold udpTouch
  cases hl : lookup src reg with
  | none => rfl
  | some c0 => exact lookup_setEntry_ne _ _ _ _ h

theorem lookup_udpTouch_self (src now : Nat) (reg : UdpReg) (c : UdpClient)
    (h : lookup src reg = some c) :
    lookup src (udpTouch src now reg) = some { c with lastActivity := now } := by
  unfold udpTouch
  rw [h]
  exact lookup_setEntry_self _ _ _

/-- The registry after one UDP datagram is the touched input registry, that
registry with the freshly registered session appended, or that registry with
the quitting source erased. -/
theorem udpHandleMessage_reg_cases (fails : Nat → Bool) (ts : Str) (now : Nat)
    (m : Str) (src : Nat) (reg : UdpReg) :
    (udpHandleMessage fails ts now m src reg).reg = udpTouch src now reg ∨
    (udpHandleMessage fails ts now m src reg).reg =
      udpTouch src now reg ++
        [(src, ⟨stripChars registerStripSet (m.drop 9), now⟩)] ∨
    (udpHandleMessage fails ts now m src reg).reg =
      eraseEntry src (udpTouch src now reg) := by
  simp only [udpHandleMessage]
  repeat' split
  all_goals
    first
      | exact Or.inl rfl
      | exact Or.inr (Or.inl rfl)
      | exact Or.inr (Or.inr rfl)

theorem udpMono_handle (fails : Nat → Bool) (ts : Str) (now : Nat) (m : Str)
    (src a : Nat) (reg : UdpReg) (hla : UdpTimesLe now reg) :
    UdpMonoAt reg (udpHandleMessage fails ts now m src reg).reg a := by
  have htch := udpMono_touch src now a reg hla
  rcases udpHandleMessage_reg_cases fails ts now m src reg with h | h | h <;>
    rw [h]
  · exact htch
  · intro c c' h1 h2
    by_cases has : a = src
    · subst has
      rw [lookup_append_of_some _ _ _ _
        (lookup_udpTouch_self a now reg c h1)] at h2
      injection h2 with he
      rw [← he]
      exact hla (a, c) (lookup_mem _ _ _ h1)
    · rw [lookup_append_of_some _ _ _ _
        (by rw [lookup_udpTouch_ne a src now reg has]; exact h1)] at h2
      injection h2 with he
      rw [he]
  · intro c c' h1 h2
    exact htch c c' h1 (lookup_of_eraseEntry_some _ _ _ _ h2)

theorem udpSweepFold_lookup_some (ts : Str) (l : List Nat) (acc : UdpOut)
    (i : Nat) (c : UdpClient)
    (h : lookup i (l.foldl (udpSweepStep ts) acc).reg = some c) :
    lookup i acc.reg = some c := by
  induction l generalizing acc with
  | nil => exact h
  | cons a l' ih => exact udpSweepStep_lookup_some ts acc a i c (ih _ h)

theorem udpMono_sweep (ts : Str) (now a : Nat) (reg : UdpReg) :
    UdpMonoAt reg (udpSweep ts now reg).reg a :=
  udpMonoAt_of_sub _ _ _ (fun c h => udpSweepFold_lookup_some ts _ _ a c h)

-- ## Message-shape lemmas

theorem stripChars_clean (s : Str) (h : CleanStr s) :
    stripChars msgStripSet s = s :=
  stripChars_eq_self _ _ h

theorem cleanStr_append (s1 s2 : Str) (h1 : CleanStr s1) (h2 : CleanStr s2) :
    CleanStr (s1 ++ s2) := by
  intro c hc
  rcases List.mem_append.mp hc with h | h
  · exact h1 c h
  · exact h2 c h

theorem cleanStr_cons (c0 : Char) (s : Str) (h0 : msgStripSet.contains c0 = false)
    (h : CleanStr s) : CleanStr (c0 :: s) := by
  intro c hc
  rcases List.mem_cons.mp hc with h' | h'
  · rw [h']; exact h0
  · exact h c h'

theorem msg_take9_ne_register (rest : Str) :
    ¬ ("/msg ".data ++ rest).take 9 = "REGISTER:".data := by
  intro h
  rw [show "/msg ".data ++ rest = '/' :: ("msg ".data ++ rest) from rfl,
    show "REGISTER:".data = 'R' :: "EGISTER:".data from rfl] at h
  rw [show ('/' :: ("msg ".data ++ rest)).take 9 =
      '/' :: ("msg ".data ++ rest).take 8 from rfl] at h
  injection h with h1 _
  exact absurd h1 (by decide)

theorem msg_ne_heartbeat (rest : Str) :
    "/msg ".data ++ rest ≠ "HEARTBEAT".data := by
  intro h
  rw [show "/msg ".data ++ rest = '/' :: ("msg ".data ++ rest) from rfl,
    show "HEARTBEAT".data = 'H' :: "EARTBEAT".data from rfl] at h
  injection h with h1 _
  exact absurd h1 (by decide)

theorem msg_ne_quit (rest : Str) : "/msg ".data ++ rest ≠ "/quit".data := by
  intro h
  rw [show "/msg ".data ++ rest = '/' :: 'm' :: ("sg ".data ++ rest) from rfl,
    show "/quit".data = '/' :: 'q' :: "uit".data from rfl] at h
  injection h with _ h2
  injection h2 with h3 _
  exact absurd h3 (by decide)

theorem msg_ne_users (rest : Str) : "/msg ".data ++ rest ≠ "/users".data := by
  intro h
  rw [show "/msg ".data ++ rest = '/' :: 'm' :: ("sg ".data ++ rest) from rfl,
    show "/users".data = '/' :: 'u' :: "sers".data from rfl] at h
  injection h with _ h2
  injection h2 with h3 _
  exact absurd h3 (by decide)

theorem msg_take5 (rest : Str) : ("/msg ".data ++ rest).take 5 = "/msg ".data :=
  take_pref "/msg ".data rest

theorem msg_drop5 (rest : Str) : ("/msg ".data ++ rest).drop 5 = rest :=
  drop_pref "/msg ".data rest

theorem msg_len_lt (rest : Str) (h : rest ≠ []) :
    5 < ("/msg ".data ++ rest).length := by
  rw [List.length_append, show ("/msg ".data).length = 5 from rfl]
  have := List.length_pos.mpr h
  omega

-- ## Claim theorems

/-- Claim C1, counterexample.  On the datagram transport, registering with an
empty raw name (`"REGISTER:"` from a fresh address) stores a session whose
display name is the empty string, not a `Guest<N>` name: the UDP server has
no Guest fallback at all. -/
theorem C1_counterexample :
    (udpHandleMessage (fun _ => false) "T".data 100 "REGISTER:".data 0 []).reg =
      [(0, { username := [], lastActivity := 100 })] ∧
    ¬ GuestName [] := by
  constructor
  · decide
  · rintro ⟨n, hn⟩
    rw [show "Guest".data = 'G' :: "uest".data from rfl] at hn
    exact List.noConfusion hn

/-- Claim C1, amended: registration sanitizes the raw name by stripping
`'\n'` and `'\r'` only (the NUL of the C literal `"\n\r\0"` is lost to
truncation, so NUL bytes survive).  On the stream transport the name is then
trimmed of spaces/tabs and an empty result is replaced by
`"Guest" + clientId`, so a whitespace-only name yields a `Guest<N>` name and
an authenticated session.  On the datagram transport there is no trimming
and no Guest fallback: a fresh address registering a whitespace-only name is
stored with that name as-is (minus `'\n'`/`'\r'`), which is never of `Guest`
form. -/
theorem C1_sanitize_register (fails : Nat → Bool) (ts : Str) (now : Nat)
    (id a : Nat) (raw : Str) (regT : TcpReg) (regU : UdpReg)
    (hws : ∀ c ∈ raw, c = ' ' ∨ c = '\t' ∨ c = '\n' ∨ c = '\r')
    (habs : lookup a regU = none) :
    tcpResolveName id raw = "Guest".data ++ (Nat.repr id).data ∧
    AuthAs (tcpAuthStep fails ts now id raw regT).reg id
      ("Guest".data ++ (Nat.repr id).data) ∧
    lookup a (udpHandleMessage fails ts now ("REGISTER:".data ++ raw) a regU).reg
      = some ⟨stripChars registerStripSet raw, now⟩ ∧
    ¬ GuestName (stripChars registerStripSet raw) := by
  have hsub : ∀ c ∈ stripChars registerStripSet raw, isSpaceTab c = true := by
    intro c hc
    rcases List.mem_filter.mp hc with ⟨hcr, hcc⟩
    rcases hws c hcr with h | h | h | h
    · simp [isSpaceTab, h]
    · simp [isSpaceTab, h]
    · rw [h] at hcc; simp [registerStripSet] at hcc
    · rw [h] at hcc; simp [registerStripSet] at hcc
  have h0 : trimWs (stripChars registerStripSet raw) = [] := trimWs_eq_nil _ hsub
  have h1 : tcpResolveName id raw = "Guest".data ++ (Nat.repr id).data := by
    unfold tcpResolveName
    rw [if_pos h0]
  refine ⟨h1, ?_, ?_, ?_⟩
  · have h2 : lookup id (tcpAuthStep fails ts now id raw regT).reg =
        some { (lookup id regT).getD tcpDefaultClient with
          username := tcpResolveName id raw, authenticated := true,
          lastActivity := now } :=
      lookup_setEntry_self _ _ _
    rw [h1] at h2
    exact ⟨_, h2, rfl, rfl⟩
  · have ht : ("REGISTER:".data ++ raw).take 9 = "REGISTER:".data := by
      exact take_pref "REGISTER:".data raw
    have hd : ("REGISTER:".data ++ raw).drop 9 = raw := by
      exact drop_pref "REGISTER:".data raw
    simp only [udpHandleMessage]
    rw [udpTouch_absent a now regU habs, ht, if_pos rfl, hd, habs]
    simp only [Option.isSome_none, Bool.false_eq_true, if_false]
    rw [lookup_append_right_of_none a regU _ habs]
    simp [lookup]
  · rintro ⟨n, hn⟩
    cases hu : stripChars registerStripSet raw with
    | nil =>
      rw [hu, show "Guest".data = 'G' :: "uest".data from rfl,
        List.cons_append] at hn
      exact List.noConfusion hn
    | cons c cs =>
      have hc := hsub c (by rw [hu]; exact List.mem_cons_self c cs)
      rw [hu, show "Guest".data = 'G' :: "uest".data from rfl,
        List.cons_append] at hn
      injection hn with hhead htail
      rw [hhead] at hc
      exact absurd hc (by decide)

/-- Witness for C1 at the whitespace-only raw name `" "`, TCP client id 3 and
a fresh UDP address 0. -/
theorem C1_sanitize_register_witness :
    tcpResolveName 3 [' '] = "Guest".data ++ (Nat.repr 3).data ∧
    AuthAs (tcpAuthStep (fun _ => false) "T".data 100 3 [' '] []).reg 3
      ("Guest".data ++ (Nat.repr 3).data) ∧
    lookup 0 (udpHandleMessage (fun _ => false) "T".data 100
        ("REGISTER:".data ++ [' ']) 0 []).reg =
      some ⟨stripChars registerStripSet [' '], 100⟩ ∧
    ¬ GuestName (stripChars registerStripSet [' ']) :=
  C1_sanitize_register (fun _ => false) "T".data 100 3 0 [' '] [] []
    (by decide) (by decide)

/-- Claim C2, amended: the TCP broadcast delivers the timestamped line to
exactly the authenticated sessions with a live socket other than the
excluded sender; the UDP broadcast delivers it to every session in the
registry other than the excluded address, with no authentication condition
(so unauthenticated empty-name sessions receive it too). -/
theorem C2_broadcast_delivery (ts body : Str) (excl : Option Nat)
    (regT : TcpReg) (regU : UdpReg) :
    (∀ i m, (i, m) ∈ tcpBroadcast ts body excl regT ↔
      m = fmtLine ts body ∧
        ∃ c, (i, c) ∈ regT ∧ c.authenticated = true ∧ c.socketValid = true ∧
          excl ≠ some i) ∧
    (∀ a m, (a, m) ∈ udpBroadcast ts body excl regU ↔
      m = fmtLine ts body ∧ ∃ c, (a, c) ∈ regU ∧ excl ≠ some a) :=
  ⟨fun i m => mem_tcpBroadcast ts body excl regT i m,
   fun a m => mem_udpBroadcast ts body excl regU a m⟩

/-- Claim C2, counterexample.  The UDP `broadcastMessage` has no
authentication check: with an empty-named (hence unauthenticated) session at
address `0` and `alice` excluded as sender, the broadcast is still delivered
to address `0`. -/
theorem C2_counterexample :
    (0, fmtLine "T".data "hi".data) ∈
      udpBroadcast "T".data "hi".data (some 1)
        [(0, ⟨[], 5⟩), (1, ⟨"alice".data, 5⟩)] ∧
    ¬ udpAuthenticated ⟨[], 5⟩ ∧
    lookup 0 [(0, (⟨[], 5⟩ : UdpClient)), (1, ⟨"alice".data, 5⟩)] =
      some ⟨[], 5⟩ := by
  refine ⟨by decide, ?_, by decide⟩
  intro h
  exact h rfl

/-- Claim C4, counterexample.  A `/users` command from a source address with
no session in the registry is answered with the full user list, not with a
prompt to register first. -/
theorem C4_counterexample :
    udpHandleMessage (fun _ => false) "T".data 100 "/users".data 0
        [(1, ⟨"alice".data, 50⟩)] =
      ⟨[(1, ⟨"alice".data, 50⟩)], [(0, "Connected users:\n- alice\n".data)]⟩ ∧
    "Connected users:\n- alice\n".data ≠
      "Please register first with REGISTER:<username>".data := by
  constructor <;> decide

/-- Claim C5: the claim is right and the TCP code is wrong.  The UDP
`lastActivity` update and both removal paths are indeed no-ops on an absent
identity, but the TCP update `clients[clientId].lastActivity = time(nullptr)`
goes through `unordered_map::operator[]`, which default-inserts: touching the
absent identity `7` turns the empty registry into one holding a fresh
unauthenticated session instead of leaving it unchanged. -/
theorem C5_touch_remove_eval :
    tcpTouch 7 100 [] =
      [(7, { username := [], authenticated := false, socketValid := false,
             lastActivity := 100 })] ∧
    tcpTouch 7 100 [] ≠ [] ∧
    udpTouch 7 100 [] = [] ∧
    tcpRemoveClient "T".data 9 [(1, ⟨"alice".data, true, true, 50⟩)] =
      ⟨[(1, ⟨"alice".data, true, true, 50⟩)], []⟩ ∧
    udpHandleMessage (fun _ => false) "T".data 100 "/quit".data 3 [] =
      ⟨[], []⟩ := by
  refine ⟨by decide, by decide, by decide, by decide, by decide⟩

/-- Claim C6, counterexample.  On the datagram transport the exact line
`"/msg "` (the prefix with nothing after it) is NOT answered with the
invalid-format notice: the `message.length() > 5` guard fails, so it falls
through to plain-message handling and is broadcast as `alice: /msg `. -/
theorem C6_counterexample :
    udpHandleMessage (fun _ => false) "T".data 100 "/msg ".data 0
        [(0, ⟨"alice".data, 50⟩), (1, ⟨"bob".data, 50⟩)] =
      ⟨[(0, ⟨"alice".data, 100⟩), (1, ⟨"bob".data, 50⟩)],
        [(1, fmtLine "T".data "alice: /msg ".data)]⟩ ∧
    fmtLine "T".data "alice: /msg ".data ≠
      fmtLine "T".data
        "Invalid private message format. Use /msg <username> <message>".data := by
  constructor <;> decide

/-- Claim C7, counterexample.  A stale UDP session whose username is empty is
removed by the sweep with NO "has timed out" broadcast: the other session
observes nothing (`sends = []`). -/
theorem C7_counterexample :
    udpSweep "T".data 200 [(0, ⟨[], 0⟩), (1, ⟨"alice".data, 200⟩)] =
      ⟨[(1, ⟨"alice".data, 200⟩)], []⟩ ∧
    120 < 200 - ((⟨[], 0⟩ : UdpClient)).lastActivity := by
  constructor <;> decide

/-- Claim C9 (confirmed): receiving the exact literal `"HEARTBEAT"` from a
known UDP session only rewrites that session's `lastActivity` to the current
time: no reply or broadcast is emitted, the entry keeps its username, and
every other address resolves exactly as before. -/
theorem C9_heartbeat_frame (fails : Nat → Bool) (ts : Str) (now : Nat)
    (src : Nat) (reg : UdpReg) (c : UdpClient)
    (h : lookup src reg = some c) :
    udpHandleMessage fails ts now "HEARTBEAT".data src reg =
      ⟨setEntry src { c with lastActivity := now } reg, []⟩ ∧
    lookup src (setEntry src { c with lastActivity := now } reg) =
      some { c with lastActivity := now } ∧
    OthersEq src reg (setEntry src { c with lastActivity := now } reg) := by
  refine ⟨?_, lookup_setEntry_self _ _ _,
    fun a ha => lookup_setEntry_ne _ _ _ _ ha⟩
  unfold udpHandleMessage udpTouch
  rw [h]
  rw [if_neg (by decide), if_pos rfl]

/-- Claim C4, amended: on the datagram transport, only plain (non-command)
messages from an unregistered source address are rejected with the
register-first prompt.  `/users` is answered with the full user list for any
sender; `HEARTBEAT`, `/quit` and a well-formed `/msg` from an unregistered
sender are silently ignored; a malformed `/msg` receives the invalid-format
notice regardless of registration.  In all cases the registry is left
unchanged. -/
theorem C4_unregistered_commands (ts : Str) (now : Nat) (src : Nat)
    (reg : UdpReg) (m t x rest : Str)
    (habs : lookup src reg = none)
    (h9 : ¬ m.take 9 = "REGISTER:".data) (hh : m ≠ "HEARTBEAT".data)
    (hq : m ≠ "/quit".data) (hu : m ≠ "/users".data)
    (hm5 : ¬ (m.take 5 = "/msg ".data ∧ 5 < m.length))
    (hts : ' ' ∉ t) (hrs : ' ' ∉ rest) (hrne : rest ≠ []) :
    udpHandleMessage (fun _ => false) ts now m src reg =
      ⟨reg, [(src, "Please register first with REGISTER:<username>".data)]⟩ ∧
    udpHandleMessage (fun _ => false) ts now "/users".data src reg =
      ⟨reg, [(src, udpUsersReply reg)]⟩ ∧
    udpHandleMessage (fun _ => false) ts now "HEARTBEAT".data src reg =
      ⟨reg, []⟩ ∧
    udpHandleMessage (fun _ => false) ts now "/quit".data src reg =
      ⟨reg, []⟩ ∧
    udpHandleMessage (fun _ => false) ts now ("/msg ".data ++ (t ++ ' ' :: x))
        src reg = ⟨reg, []⟩ ∧
    udpHandleMessage (fun _ => false) ts now ("/msg ".data ++ rest) src reg =
      ⟨reg, [(src, fmtLine ts
        "Invalid private message format. Use /msg <username> <message>".data)]⟩ := by
  have htch : udpTouch src now reg = reg := udpTouch_absent src now reg habs
  refine ⟨?_, ?_, ?_, ?_, ?_, ?_⟩
  · have hb : ¬ ((decide (m.take 5 = "/msg ".data) &&
        decide (5 < m.length)) = true) := by
      simp only [Bool.and_eq_true, decide_eq_true_eq]
      exact hm5
    simp only [udpHandleMessage]
    rw [htch, if_neg h9, if_neg hh, if_neg hq, if_neg hu, if_neg hb, habs]
    rfl
  · simp only [udpHandleMessage]
    rw [htch,
      if_neg (show ¬ ("/users".data.take 9 = "REGISTER:".data) by decide),
      if_neg (show "/users".data ≠ "HEARTBEAT".data by decide),
      if_neg (show "/users".data ≠ "/quit".data by decide),
      if_pos (trivial : True)]
    rfl
  · simp only [udpHandleMessage]
    rw [htch,
      if_neg (show ¬ ("HEARTBEAT".data.take 9 = "REGISTER:".data) by decide),
      if_pos (trivial : True)]
  · simp only [udpHandleMessage]
    rw [htch,
      if_neg (show ¬ ("/quit".data.take 9 = "REGISTER:".data) by decide),
      if_neg (show "/quit".data ≠ "HEARTBEAT".data by decide),
      if_pos (trivial : True), habs]
  · have hsp : splitAtFirstSpace (t ++ ' ' :: x) = some (t, x) :=
      splitAtFirstSpace_append t x hts
    have hne : t ++ ' ' :: x ≠ [] := by simp
    have hb : (decide (("/msg ".data ++ (t ++ ' ' :: x)).take 5 = "/msg ".data)
        && decide (5 < ("/msg ".data ++ (t ++ ' ' :: x)).length)) = true := by
      simp only [Bool.and_eq_true, decide_eq_true_eq]
      exact ⟨msg_take5 _, msg_len_lt _ hne⟩
    simp only [udpHandleMessage]
    rw [htch, if_neg (msg_take9_ne_register _), if_neg (msg_ne_heartbeat _),
      if_neg (msg_ne_quit _), if_neg (msg_ne_users _), if_pos hb,
      msg_drop5, hsp, habs]
    rfl
  · have hsp : splitAtFirstSpace rest = none := splitAtFirstSpace_none rest hrs
    have hb : (decide (("/msg ".data ++ rest).take 5 = "/msg ".data)
        && decide (5 < ("/msg ".data ++ rest).length)) = true := by
      simp only [Bool.and_eq_true, decide_eq_true_eq]
      exact ⟨msg_take5 _, msg_len_lt _ hrne⟩
    simp only [udpHandleMessage]
    rw [htch, if_neg (msg_take9_ne_register _), if_neg (msg_ne_heartbeat _),
      if_neg (msg_ne_quit _), if_neg (msg_ne_users _), if_pos hb,
      msg_drop5, hsp]
    rfl

/-- Witness for C4 at a concrete unregistered sender. -/
theorem C4_unregistered_commands_witness :
    udpHandleMessage (fun _ => false) "T".data 100 "hello".data 0
        [(1, ⟨"alice".data, 50⟩)] =
      ⟨[(1, ⟨"alice".data, 50⟩)],
        [(0, "Please register first with REGISTER:<username>".data)]⟩ ∧
    udpHandleMessage (fun _ => false) "T".data 100 "/users".data 0
        [(1, ⟨"alice".data, 50⟩)] =
      ⟨[(1, ⟨"alice".data, 50⟩)],
        [(0, udpUsersReply [(1, ⟨"alice".data, 50⟩)])]⟩ ∧
    udpHandleMessage (fun _ => false) "T".data 100 "HEARTBEAT".data 0
        [(1, ⟨"alice".data, 50⟩)] = ⟨[(1, ⟨"alice".data, 50⟩)], []⟩ ∧
    udpHandleMessage (fun _ => false) "T".data 100 "/quit".data 0
        [(1, ⟨"alice".data, 50⟩)] = ⟨[(1, ⟨"alice".data, 50⟩)], []⟩ ∧
    udpHandleMessage (fun _ => false) "T".data 100
        ("/msg ".data ++ ("bob".data ++ ' ' :: "hi".data)) 0
        [(1, ⟨"alice".data, 50⟩)] = ⟨[(1, ⟨"alice".data, 50⟩)], []⟩ ∧
    udpHandleMessage (fun _ => false) "T".data 100 ("/msg ".data ++ "bob".data)
        0 [(1, ⟨"alice".data, 50⟩)] =
      ⟨[(1, ⟨"alice".data, 50⟩)],
        [(0, fmtLine "T".data
          "Invalid private message format. Use /msg <username> <message>".data)]⟩ :=
  C4_unregistered_commands "T".data 100 0 [(1, ⟨"alice".data, 50⟩)]
    "hello".data "bob".data "hi".data "bob".data (by decide) (by decide)
    (by decide) (by decide) (by decide) (by decide) (by decide) (by decide)
    (by decide)

/-- Claim C6, amended: for every `"/msg "`-prefixed line the second space
delimits the target from the text (conjunct 1); a line with no second space
draws the invalid-format notice, to the sender only, on the stream transport
for every such line — `rest`, the remainder after the prefix, is arbitrary,
the empty remainder (the exact line `"/msg "`) included (conjunct 2) — and
on the datagram transport for every such line except the exact
five-character line `"/msg "` (conjunct 3), which the `length() > 5` guard
instead routes to plain-message handling (conjunct 4); and a zero-length
target as in `"/msg  hi"` parses as the target named `""`, which fails
lookup — and draws the not-found notice — whenever every authenticated
display name in the registry is non-empty (conjuncts 5 and 6). -/
theorem C6_msg_parsing (ts sname : Str) (now : Nat) (sid src src2 : Nat)
    (regT T' : TcpReg) (regU regU2 : UdpReg) (t x rest restU : Str)
    (cu cu2 : UdpClient)
    (hT : tcpTouch sid now regT = T')
    (hts : ' ' ∉ t) (hrs : ' ' ∉ rest)
    (hclr : CleanStr rest) (hclx : CleanStr x)
    (hrsU : ' ' ∉ restU) (hrneU : restU ≠ [])
    (hlk : lookup src (udpTouch src now regU) = some cu)
    (hcu : cu.username ≠ [])
    (hinv : TcpInv T')
    (hlk2 : lookup src2 (udpTouch src2 now regU2) = some cu2)
    (hnnU : ∀ p ∈ udpTouch src2 now regU2, p.2.username ≠ []) :
    splitAtFirstSpace (t ++ ' ' :: x) = some (t, x) ∧
    tcpDispatch (fun _ => false) ts now sname sid ("/msg ".data ++ rest) regT =
      ⟨T', [(sid, fmtLine ts
        "Invalid private message format. Use /msg <username> <message>".data)],
        false⟩ ∧
    udpHandleMessage (fun _ => false) ts now ("/msg ".data ++ restU) src regU =
      ⟨udpTouch src now regU, [(src, fmtLine ts
        "Invalid private message format. Use /msg <username> <message>".data)]⟩ ∧
    udpHandleMessage (fun _ => false) ts now "/msg ".data src regU =
      ⟨udpTouch src now regU,
        udpBroadcast ts (cu.username ++ ": ".data ++ "/msg ".data) (some src)
          (udpTouch src now regU)⟩ ∧
    tcpDispatch (fun _ => false) ts now sname sid ("/msg ".data ++ ' ' :: x)
        regT =
      ⟨T', [(sid, fmtLine ts ("User ".data ++ " not found.".data))], false⟩ ∧
    udpHandleMessage (fun _ => false) ts now ("/msg ".data ++ ' ' :: x) src2
        regU2 =
      ⟨udpTouch src2 now regU2,
        [(src2, fmtLine ts ("User ".data ++ " not found.".data))]⟩ := by
  have hcl5 : CleanStr "/msg ".data := by unfold CleanStr; decide
  refine ⟨splitAtFirstSpace_append t x hts, ?_, ?_, ?_, ?_, ?_⟩
  · have hcl : stripChars msgStripSet ("/msg ".data ++ rest) =
        "/msg ".data ++ rest :=
      stripChars_clean _ (cleanStr_append _ _ hcl5 hclr)
    have hsp : splitAtFirstSpace rest = none := splitAtFirstSpace_none rest hrs
    simp only [tcpDispatch]
    rw [hcl, hT, if_neg (msg_ne_quit _), if_neg (msg_ne_users _),
      if_pos (msg_take5 _), msg_drop5, hsp]
    rfl
  · have hsp : splitAtFirstSpace restU = none :=
      splitAtFirstSpace_none restU hrsU
    have hb : (decide (("/msg ".data ++ restU).take 5 = "/msg ".data)
        && decide (5 < ("/msg ".data ++ restU).length)) = true := by
      simp only [Bool.and_eq_true, decide_eq_true_eq]
      exact ⟨msg_take5 _, msg_len_lt _ hrneU⟩
    simp only [udpHandleMessage]
    rw [if_neg (msg_take9_ne_register _), if_neg (msg_ne_heartbeat _),
      if_neg (msg_ne_quit _), if_neg (msg_ne_users _), if_pos hb,
      msg_drop5, hsp]
    rfl
  · have hb : ¬ ((decide (("/msg ".data : Str).take 5 = "/msg ".data)
        && decide (5 < ("/msg ".data : Str).length)) = true) := by decide
    simp only [udpHandleMessage]
    rw [if_neg (show ¬ (("/msg ".data : Str).take 9 = "REGISTER:".data)
          by decide),
      if_neg (show ("/msg ".data : Str) ≠ "HEARTBEAT".data by decide),
      if_neg (show ("/msg ".data : Str) ≠ "/quit".data by decide),
      if_neg (show ("/msg ".data : Str) ≠ "/users".data by decide),
      if_neg hb, hlk, if_neg hcu]
  · have hcl : stripChars msgStripSet ("/msg ".data ++ ' ' :: x) =
        "/msg ".data ++ ' ' :: x :=
      stripChars_clean _ (cleanStr_append _ _ hcl5
        (cleanStr_cons ' ' x (by decide) hclx))
    have hlookT : lookup sid T' =
        some { (lookup sid regT).getD tcpDefaultClient with
          lastActivity := now } := by
      rw [← hT]
      exact lookup_setEntry_self _ _ _
    have hfind : T'.find? (fun p =>
        p.2.authenticated && p.2.username == ([] : Str) && p.2.socketValid) =
          none := by
      rw [List.find?_eq_none]
      intro p hp
      simp only [Bool.and_eq_true, beq_iff_eq, not_and]
      rintro ⟨ha, hu⟩
      exact absurd hu (hinv p hp ha)
    have hr : tcpSendPrivate (fun _ => false) ts [] x sid T' = (false, []) := by
      unfold tcpSendPrivate
      rw [hlookT, hfind]
    simp only [tcpDispatch]
    rw [hcl, hT, if_neg (msg_ne_quit _), if_neg (msg_ne_users _),
      if_pos (msg_take5 _), msg_drop5,
      show splitAtFirstSpace (' ' :: x) = some ([], x) from rfl]
    simp only []
    rw [hr]
    rfl
  · have hcu2 : cu2.username ≠ [] := hnnU _ (lookup_mem _ _ _ hlk2)
    have hfindU : (udpTouch src2 now regU2).find? (fun p =>
        p.2.username == ([] : Str)) = none := by
      rw [List.find?_eq_none]
      intro p hp
      simp only [beq_iff_eq]
      exact hnnU p hp
    have hrU : udpSendPrivate (fun _ => false) ts [] x src2
        (udpTouch src2 now regU2) = (false, []) := by
      unfold udpSendPrivate
      rw [hlk2, if_neg hcu2, hfindU]
    have hb : (decide ((("/msg ".data ++ ' ' :: x) : Str).take 5 =
          "/msg ".data)
        && decide (5 < (("/msg ".data ++ ' ' :: x) : Str).length)) = true := by
      simp only [Bool.and_eq_true, decide_eq_true_eq]
      exact ⟨msg_take5 _, msg_len_lt _ (List.cons_ne_nil _ _)⟩
    simp only [udpHandleMessage]
    rw [if_neg (msg_take9_ne_register _), if_neg (msg_ne_heartbeat _),
      if_neg (msg_ne_quit _), if_neg (msg_ne_users _), if_pos hb, msg_drop5,
      show splitAtFirstSpace (' ' :: x) = some ([], x) from rfl]
    simp only []
    rw [hlk2, if_neg hcu2, hrU]
    rfl

/-- Witness for C6 at concrete registries and the lines `"/msg bob hi"`,
`"/msg "` (stream: invalid format; datagram: plain-message fallthrough),
`"/msg bob"` (datagram, invalid format) and `"/msg  hi"`. -/
theorem C6_msg_parsing_witness :
    splitAtFirstSpace ("bob".data ++ ' ' :: "hi".data) =
      some ("bob".data, "hi".data) ∧
    tcpDispatch (fun _ => false) "T".data 100 "alice".data 1
        ("/msg ".data ++ ([] : Str)) [(1, ⟨"alice".data, true, true, 50⟩)] =
      ⟨[(1, ⟨"alice".data, true, true, 100⟩)], [(1, fmtLine "T".data
        "Invalid private message format. Use /msg <username> <message>".data)],
        false⟩ ∧
    udpHandleMessage (fun _ => false) "T".data 100 ("/msg ".data ++ "bob".data)
        0 [(0, ⟨"alice".data, 50⟩)] =
      ⟨udpTouch 0 100 [(0, ⟨"alice".data, 50⟩)], [(0, fmtLine "T".data
        "Invalid private message format. Use /msg <username> <message>".data)]⟩ ∧
    udpHandleMessage (fun _ => false) "T".data 100 "/msg ".data 0
        [(0, ⟨"alice".data, 50⟩)] =
      ⟨udpTouch 0 100 [(0, ⟨"alice".data, 50⟩)],
        udpBroadcast "T".data ("alice".data ++ ": ".data ++ "/msg ".data)
          (some 0) (udpTouch 0 100 [(0, ⟨"alice".data, 50⟩)])⟩ ∧
    tcpDispatch (fun _ => false) "T".data 100 "alice".data 1
        ("/msg ".data ++ ' ' :: "hi".data) [(1, ⟨"alice".data, true, true, 50⟩)] =
      ⟨[(1, ⟨"alice".data, true, true, 100⟩)],
        [(1, fmtLine "T".data ("User ".data ++ " not found.".data))], false⟩ ∧
    udpHandleMessage (fun _ => false) "T".data 100
        ("/msg ".data ++ ' ' :: "hi".data) 2 [(2, ⟨"carol".data, 50⟩)] =
      ⟨udpTouch 2 100 [(2, ⟨"carol".data, 50⟩)],
        [(2, fmtLine "T".data ("User ".data ++ " not found.".data))]⟩ :=
  C6_msg_parsing "T".data "alice".data 100 1 0 2
    [(1, ⟨"alice".data, true, true, 50⟩)]
    [(1, ⟨"alice".data, true, true, 100⟩)]
    [(0, ⟨"alice".data, 50⟩)] [(2, ⟨"carol".data, 50⟩)]
    "bob".data "hi".data [] "bob".data ⟨"alice".data, 100⟩
    ⟨"carol".data, 100⟩
    (by decide) (by decide) (by decide)
    (by unfold CleanStr; decide) (by unfold CleanStr; decide)
    (by decide) (by decide) (by decide) (by decide)
    (by unfold TcpInv; decide) (by decide) (by decide)

/-- Claim C3 (confirmed): for an authenticated sender, `/msg target text`
with the target found by the lookup delivers
`"[Private from <sender>]: <text>"` to the target and the confirmation
`"[Private to <target>]: <text>"` back to the sender, and
`sendPrivateMessage` returns `true`; with the target not found it returns
`false` and the sender alone receives the `"User <target> not found."`
notice.  Both transports, no transport failures. -/
theorem C3_private_message (ts sname : Str) (now : Nat)
    (sid sid2 src src2 : Nat) (regT regT2 T1 T2 : TcpReg)
    (regU regU2 : UdpReg)
    (target text target2 text2 targetU textU targetU2 textU2 : Str)
    (sc : TcpClient) (tp : Nat × TcpClient) (cu cu2 : UdpClient)
    (tq : Nat × UdpClient)
    (hT1 : tcpTouch sid now regT = T1)
    (hsc : lookup sid T1 = some sc) (hscv : sc.socketValid = true)
    (hts : ' ' ∉ target) (hclt : CleanStr target) (hclx : CleanStr text)
    (hfind : T1.find? (fun p => p.2.authenticated && p.2.username == target
       && p.2.socketValid) = some tp)
    (hT2 : tcpTouch sid2 now regT2 = T2)
    (hts2 : ' ' ∉ target2) (hclt2 : CleanStr target2) (hclx2 : CleanStr text2)
    (hfind2 : T2.find? (fun p => p.2.authenticated && p.2.username == target2
       && p.2.socketValid) = none)
    (hlkU : lookup src (udpTouch src now regU) = some cu)
    (hcu : cu.username ≠ []) (htsU : ' ' ∉ targetU)
    (hfindU : (udpTouch src now regU).find? (fun p =>
       p.2.username == targetU) = some tq)
    (hlkU2 : lookup src2 (udpTouch src2 now regU2) = some cu2)
    (hcu2 : cu2.username ≠ []) (htsU2 : ' ' ∉ targetU2)
    (hfindU2 : (udpTouch src2 now regU2).find? (fun p =>
       p.2.username == targetU2) = none) :
    tcpSendPrivate (fun _ => false) ts target text sid T1 =
      (true,
        [(tp.1, fmtLine ts
           ("[Private from ".data ++ sc.username ++ "]: ".data ++ text)),
         (sid, fmtLine ts
           ("[Private to ".data ++ target ++ "]: ".data ++ text))]) ∧
    tcpDispatch (fun _ => false) ts now sname sid
        ("/msg ".data ++ (target ++ ' ' :: text)) regT =
      ⟨T1,
        [(tp.1, fmtLine ts
           ("[Private from ".data ++ sc.username ++ "]: ".data ++ text)),
         (sid, fmtLine ts
           ("[Private to ".data ++ target ++ "]: ".data ++ text))], false⟩ ∧
    tcpSendPrivate (fun _ => false) ts target2 text2 sid2 T2 = (false, []) ∧
    tcpDispatch (fun _ => false) ts now sname sid2
        ("/msg ".data ++ (target2 ++ ' ' :: text2)) regT2 =
      ⟨T2, [(sid2, fmtLine ts
        ("User ".data ++ target2 ++ " not found.".data))], false⟩ ∧
    udpSendPrivate (fun _ => false) ts targetU textU src
        (udpTouch src now regU) =
      (true,
        [(tq.1, fmtLine ts
           ("[Private from ".data ++ cu.username ++ "]: ".data ++ textU)),
         (src, fmtLine ts
           ("[Private to ".data ++ targetU ++ "]: ".data ++ textU))]) ∧
    udpHandleMessage (fun _ => false) ts now
        ("/msg ".data ++ (targetU ++ ' ' :: textU)) src regU =
      ⟨udpTouch src now regU,
        [(tq.1, fmtLine ts
           ("[Private from ".data ++ cu.username ++ "]: ".data ++ textU)),
         (src, fmtLine ts
           ("[Private to ".data ++ targetU ++ "]: ".data ++ textU))]⟩ ∧
    udpSendPrivate (fun _ => false) ts targetU2 textU2 src2
        (udpTouch src2 now regU2) = (false, []) ∧
    udpHandleMessage (fun _ => false) ts now
        ("/msg ".data ++ (targetU2 ++ ' ' :: textU2)) src2 regU2 =
      ⟨udpTouch src2 now regU2,
        [(src2, fmtLine ts
          ("User ".data ++ targetU2 ++ " not found.".data))]⟩ := by
  have hsc2 : lookup sid2 T2 =
      some { (lookup sid2 regT2).getD tcpDefaultClient with
        lastActivity := now } := by
    rw [← hT2]
    exact lookup_setEntry_self _ _ _
  have hrT : tcpSendPrivate (fun _ => false) ts target text sid T1 =
      (true,
        [(tp.1, fmtLine ts
           ("[Private from ".data ++ sc.username ++ "]: ".data ++ text)),
         (sid, fmtLine ts
           ("[Private to ".data ++ target ++ "]: ".data ++ text))]) := by
    unfold tcpSendPrivate
    rw [hsc]
    simp only []
    rw [hfind]
    simp only []
    rw [hscv]
    rfl
  have hrT2 : tcpSendPrivate (fun _ => false) ts target2 text2 sid2 T2 =
      (false, []) := by
    unfold tcpSendPrivate
    rw [hsc2]
    simp only []
    rw [hfind2]
  have hrU : udpSendPrivate (fun _ => false) ts targetU textU src
      (udpTouch src now regU) =
      (true,
        [(tq.1, fmtLine ts
           ("[Private from ".data ++ cu.username ++ "]: ".data ++ textU)),
         (src, fmtLine ts
           ("[Private to ".data ++ targetU ++ "]: ".data ++ textU))]) := by
    unfold udpSendPrivate
    rw [hlkU]
    simp only []
    rw [if_neg hcu, hfindU]
    rfl
  have hrU2 : udpSendPrivate (fun _ => false) ts targetU2 textU2 src2
      (udpTouch src2 now regU2) = (false, []) := by
    unfold udpSendPrivate
    rw [hlkU2]
    simp only []
    rw [if_neg hcu2, hfindU2]
  refine ⟨hrT, ?_, hrT2, ?_, hrU, ?_, hrU2, ?_⟩
  · have hcl : stripChars msgStripSet
        ("/msg ".data ++ (target ++ ' ' :: text)) =
        "/msg ".data ++ (target ++ ' ' :: text) :=
      stripChars_clean _ (cleanStr_append _ _ (by unfold CleanStr; decide)
        (cleanStr_append _ _ hclt (cleanStr_cons ' ' text (by decide) hclx)))
    simp only [tcpDispatch]
    rw [hcl, hT1, if_neg (msg_ne_quit _), if_neg (msg_ne_users _),
      if_pos (msg_take5 _), msg_drop5, splitAtFirstSpace_append target text hts]
    simp only []
    rw [hrT]
    rfl
  · have hcl : stripChars msgStripSet
        ("/msg ".data ++ (target2 ++ ' ' :: text2)) =
        "/msg ".data ++ (target2 ++ ' ' :: text2) :=
      stripChars_clean _ (cleanStr_append _ _ (by unfold CleanStr; decide)
        (cleanStr_append _ _ hclt2 (cleanStr_cons ' ' text2 (by decide) hclx2)))
    simp only [tcpDispatch]
    rw [hcl, hT2, if_neg (msg_ne_quit _), if_neg (msg_ne_users _),
      if_pos (msg_take5 _), msg_drop5,
      splitAtFirstSpace_append target2 text2 hts2]
    simp only []
    rw [hrT2]
    rfl
  · have hb : (decide ((("/msg ".data ++ (targetU ++ ' ' :: textU)) : Str).take 5
        = "/msg ".data)
        && decide (5 < (("/msg ".data ++ (targetU ++ ' ' :: textU)) : Str).length))
        = true := by
      simp only [Bool.and_eq_true, decide_eq_true_eq]
      exact ⟨msg_take5 _, msg_len_lt _ (by simp)⟩
    simp only [udpHandleMessage]
    rw [if_neg (msg_take9_ne_register _), if_neg (msg_ne_heartbeat _),
      if_neg (msg_ne_quit _), if_neg (msg_ne_users _), if_pos hb, msg_drop5,
      splitAtFirstSpace_append targetU textU htsU]
    simp only []
    rw [hlkU, if_neg hcu, hrU]
    rfl
  · have hb : (decide ((("/msg ".data ++ (targetU2 ++ ' ' :: textU2)) : Str).take 5
        = "/msg ".data)
        && decide (5 < (("/msg ".data ++ (targetU2 ++ ' ' :: textU2)) : Str).length))
        = true := by
      simp only [Bool.and_eq_true, decide_eq_true_eq]
      exact ⟨msg_take5 _, msg_len_lt _ (by simp)⟩
    simp only [udpHandleMessage]
    rw [if_neg (msg_take9_ne_register _), if_neg (msg_ne_heartbeat _),
      if_neg (msg_ne_quit _), if_neg (msg_ne_users _), if_pos hb, msg_drop5,
      splitAtFirstSpace_append targetU2 textU2 htsU2]
    simp only []
    rw [hlkU2, if_neg hcu2, hrU2]
    rfl

/-- Witness for C3: `alice` messages `bob` (delivered, both transports) and
`ghost` (not found, both transports). -/
theorem C3_private_message_witness :
    tcpSendPrivate (fun _ => false) "T".data "bob".data "hi".data 1
        [(1, ⟨"alice".data, true, true, 100⟩), (2, ⟨"bob".data, true, true, 50⟩)] =
      (true,
        [(2, fmtLine "T".data
           ("[Private from ".data ++ "alice".data ++ "]: ".data ++ "hi".data)),
         (1, fmtLine "T".data
           ("[Private to ".data ++ "bob".data ++ "]: ".data ++ "hi".data))]) ∧
    tcpDispatch (fun _ => false) "T".data 100 "alice".data 1
        ("/msg ".data ++ ("bob".data ++ ' ' :: "hi".data))
        [(1, ⟨"alice".data, true, true, 50⟩), (2, ⟨"bob".data, true, true, 50⟩)] =
      ⟨[(1, ⟨"alice".data, true, true, 100⟩), (2, ⟨"bob".data, true, true, 50⟩)],
        [(2, fmtLine "T".data
           ("[Private from ".data ++ "alice".data ++ "]: ".data ++ "hi".data)),
         (1, fmtLine "T".data
           ("[Private to ".data ++ "bob".data ++ "]: ".data ++ "hi".data))],
        false⟩ ∧
    tcpSendPrivate (fun _ => false) "T".data "ghost".data "yo".data 3
        [(3, ⟨"carol".data, true, true, 100⟩)] = (false, []) ∧
    tcpDispatch (fun _ => false) "T".data 100 "carol".data 3
        ("/msg ".data ++ ("ghost".data ++ ' ' :: "yo".data))
        [(3, ⟨"carol".data, true, true, 50⟩)] =
      ⟨[(3, ⟨"carol".data, true, true, 100⟩)],
        [(3, fmtLine "T".data
          ("User ".data ++ "ghost".data ++ " not found.".data))], false⟩ ∧
    udpSendPrivate (fun _ => false) "T".data "bob".data "hi".data 0
        (udpTouch 0 100 [(0, ⟨"alice".data, 50⟩), (1, ⟨"bob".data, 50⟩)]) =
      (true,
        [(1, fmtLine "T".data
           ("[Private from ".data ++ "alice".data ++ "]: ".data ++ "hi".data)),
         (0, fmtLine "T".data
           ("[Private to ".data ++ "bob".data ++ "]: ".data ++ "hi".data))]) ∧
    udpHandleMessage (fun _ => false) "T".data 100
        ("/msg ".data ++ ("bob".data ++ ' ' :: "hi".data)) 0
        [(0, ⟨"alice".data, 50⟩), (1, ⟨"bob".data, 50⟩)] =
      ⟨udpTouch 0 100 [(0, ⟨"alice".data, 50⟩), (1, ⟨"bob".data, 50⟩)],
        [(1, fmtLine "T".data
           ("[Private from ".data ++ "alice".data ++ "]: ".data ++ "hi".data)),
         (0, fmtLine "T".data
           ("[Private to ".data ++ "bob".data ++ "]: ".data ++ "hi".data))]⟩ ∧
    udpSendPrivate (fun _ => false) "T".data "ghost".data "yo".data 2
        (udpTouch 2 100 [(2, ⟨"carol".data, 50⟩)]) = (false, []) ∧
    udpHandleMessage (fun _ => false) "T".data 100
        ("/msg ".data ++ ("ghost".data ++ ' ' :: "yo".data)) 2
        [(2, ⟨"carol".data, 50⟩)] =
      ⟨udpTouch 2 100 [(2, ⟨"carol".data, 50⟩)],
        [(2, fmtLine "T".data
          ("User ".data ++ "ghost".data ++ " not found.".data))]⟩ :=
  C3_private_message "T".data "alice".data 100 1 3 0 2
    [(1, ⟨"alice".data, true, true, 50⟩), (2, ⟨"bob".data, true, true, 50⟩)]
    [(3, ⟨"carol".data, true, true, 50⟩)]
    [(1, ⟨"alice".data, true, true, 100⟩), (2, ⟨"bob".data, true, true, 50⟩)]
    [(3, ⟨"carol".data, true, true, 100⟩)]
    [(0, ⟨"alice".data, 50⟩), (1, ⟨"bob".data, 50⟩)] [(2, ⟨"carol".data, 50⟩)]
    "bob".data "hi".data "ghost".data "yo".data "bob".data "hi".data
    "ghost".data "yo".data
    ⟨"alice".data, true, true, 100⟩ (2, ⟨"bob".data, true, true, 50⟩)
    ⟨"alice".data, 100⟩ ⟨"carol".data, 100⟩ (1, ⟨"bob".data, 50⟩)
    (by decide) (by decide) (by decide) (by decide)
    (by unfold CleanStr; decide) (by unfold CleanStr; decide) (by decide)
    (by decide) (by decide) (by unfold CleanStr; decide)
    (by unfold CleanStr; decide) (by decide) (by decide) (by decide)
    (by decide) (by decide) (by decide) (by decide) (by decide) (by decide)

/-- Claim C10 (confirmed): when the transport send to an existing, matching
private-message target throws, `sendPrivateMessage` returns `false` with
nothing delivered, so the dispatcher sends the `"User <target> not found."`
notice to the sender even though the target session exists — and the target
stays in the registry: the failure removes no session (the dispatch registry
is exactly the touched input registry, in which the target still resolves).
Both transports. -/
theorem C10_private_send_failure (ts sname : Str) (now : Nat)
    (sid src : Nat) (regT T' : TcpReg) (regU : UdpReg)
    (target text targetU textU : Str) (tp : Nat × TcpClient)
    (cu : UdpClient) (tq : Nat × UdpClient) (fails : Nat → Bool)
    (hT : tcpTouch sid now regT = T')
    (hts : ' ' ∉ target) (hclt : CleanStr target) (hclx : CleanStr text)
    (hfind : T'.find? (fun p => p.2.authenticated && p.2.username == target
       && p.2.socketValid) = some tp)
    (hft : fails tp.1 = true) (hfs : fails sid = false)
    (hnd : KeysNodup T')
    (hlkU : lookup src (udpTouch src now regU) = some cu)
    (hcu : cu.username ≠ []) (htsU : ' ' ∉ targetU)
    (hfindU : (udpTouch src now regU).find? (fun p =>
       p.2.username == targetU) = some tq)
    (hfq : fails tq.1 = true) (hfsrc : fails src = false)
    (hndU : KeysNodup (udpTouch src now regU)) :
    tcpSendPrivate fails ts target text sid T' = (false, []) ∧
    tcpDispatch fails ts now sname sid
        ("/msg ".data ++ (target ++ ' ' :: text)) regT =
      ⟨T', [(sid, fmtLine ts
        ("User ".data ++ target ++ " not found.".data))], false⟩ ∧
    lookup tp.1 T' = some tp.2 ∧
    udpSendPrivate fails ts targetU textU src (udpTouch src now regU) =
      (false, []) ∧
    udpHandleMessage fails ts now
        ("/msg ".data ++ (targetU ++ ' ' :: textU)) src regU =
      ⟨udpTouch src now regU, [(src, fmtLine ts
        ("User ".data ++ targetU ++ " not found.".data))]⟩ ∧
    lookup tq.1 (udpTouch src now regU) = some tq.2 := by
  have hsc : lookup sid T' =
      some { (lookup sid regT).getD tcpDefaultClient with
        lastActivity := now } := by
    rw [← hT]
    exact lookup_setEntry_self _ _ _
  have hrT : tcpSendPrivate fails ts target text sid T' = (false, []) := by
    unfold tcpSendPrivate
    rw [hsc]
    simp only []
    rw [hfind]
    simp only []
    rw [hft]
    rfl
  have hrU : udpSendPrivate fails ts targetU textU src
      (udpTouch src now regU) = (false, []) := by
    unfold udpSendPrivate
    rw [hlkU]
    simp only []
    rw [if_neg hcu, hfindU]
    simp only []
    rw [hfq]
    rfl
  have hmemT : (tp.1, tp.2) ∈ T' := by
    have := List.mem_of_find?_eq_some hfind
    rwa [Prod.mk.eta]
  have hmemU : (tq.1, tq.2) ∈ udpTouch src now regU := by
    have := List.mem_of_find?_eq_some hfindU
    rwa [Prod.mk.eta]
  refine ⟨hrT, ?_, lookup_eq_of_mem _ _ _ hnd hmemT, hrU, ?_,
    lookup_eq_of_mem _ _ _ hndU hmemU⟩
  · have hcl : stripChars msgStripSet
        ("/msg ".data ++ (target ++ ' ' :: text)) =
        "/msg ".data ++ (target ++ ' ' :: text) :=
      stripChars_clean _ (cleanStr_append _ _ (by unfold CleanStr; decide)
        (cleanStr_append _ _ hclt (cleanStr_cons ' ' text (by decide) hclx)))
    simp only [tcpDispatch]
    rw [hcl, hT, if_neg (msg_ne_quit _), if_neg (msg_ne_users _),
      if_pos (msg_take5 _), msg_drop5, splitAtFirstSpace_append target text hts]
    simp only []
    rw [hrT]
    simp only []
    rw [hfs]
    rfl
  · have hb : (decide ((("/msg ".data ++ (targetU ++ ' ' :: textU)) : Str).take 5
        = "/msg ".data)
        && decide (5 < (("/msg ".data ++ (targetU ++ ' ' :: textU)) : Str).length))
        = true := by
      simp only [Bool.and_eq_true, decide_eq_true_eq]
      exact ⟨msg_take5 _, msg_len_lt _ (by simp)⟩
    simp only [udpHandleMessage]
    rw [if_neg (msg_take9_ne_register _), if_neg (msg_ne_heartbeat _),
      if_neg (msg_ne_quit _), if_neg (msg_ne_users _), if_pos hb, msg_drop5,
      splitAtFirstSpace_append targetU textU htsU]
    simp only []
    rw [hlkU, if_neg hcu, hrU]
    simp only [sendGuard]
    rw [hfsrc]
    rfl

/-- Witness for C10: `alice` messages `bob` while every send to `bob`'s
identity (2, on either transport) throws. -/
theorem C10_private_send_failure_witness :
    tcpSendPrivate (fun i => i == 2) "T".data "bob".data "hi".data 1
        [(1, ⟨"alice".data, true, true, 100⟩),
         (2, ⟨"bob".data, true, true, 50⟩)] = (false, []) ∧
    tcpDispatch (fun i => i == 2) "T".data 100 "alice".data 1
        ("/msg ".data ++ ("bob".data ++ ' ' :: "hi".data))
        [(1, ⟨"alice".data, true, true, 50⟩),
         (2, ⟨"bob".data, true, true, 50⟩)] =
      ⟨[(1, ⟨"alice".data, true, true, 100⟩),
        (2, ⟨"bob".data, true, true, 50⟩)],
        [(1, fmtLine "T".data
          ("User ".data ++ "bob".data ++ " not found.".data))], false⟩ ∧
    lookup 2 [(1, (⟨"alice".data, true, true, 100⟩ : TcpClient)),
        (2, ⟨"bob".data, true, true, 50⟩)] =
      some ⟨"bob".data, true, true, 50⟩ ∧
    udpSendPrivate (fun i => i == 2) "T".data "bob".data "hi".data 0
        (udpTouch 0 100 [(0, ⟨"alice".data, 50⟩), (2, ⟨"bob".data, 50⟩)]) =
      (false, []) ∧
    udpHandleMessage (fun i => i == 2) "T".data 100
        ("/msg ".data ++ ("bob".data ++ ' ' :: "hi".data)) 0
        [(0, ⟨"alice".data, 50⟩), (2, ⟨"bob".data, 50⟩)] =
      ⟨udpTouch 0 100 [(0, ⟨"alice".data, 50⟩), (2, ⟨"bob".data, 50⟩)],
        [(0, fmtLine "T".data
          ("User ".data ++ "bob".data ++ " not found.".data))]⟩ ∧
    lookup 2 (udpTouch 0 100 [(0, ⟨"alice".data, 50⟩), (2, ⟨"bob".data, 50⟩)]) =
      some ⟨"bob".data, 50⟩ :=
  C10_private_send_failure "T".data "alice".data 100 1 0
    [(1, ⟨"alice".data, true, true, 50⟩), (2, ⟨"bob".data, true, true, 50⟩)]
    [(1, ⟨"alice".data, true, true, 100⟩), (2, ⟨"bob".data, true, true, 50⟩)]
    [(0, ⟨"alice".data, 50⟩), (2, ⟨"bob".data, 50⟩)]
    "bob".data "hi".data "bob".data "hi".data
    (2, ⟨"bob".data, true, true, 50⟩) ⟨"alice".data, 100⟩ (2, ⟨"bob".data, 50⟩)
    (fun i => i == 2)
    (by decide) (by decide) (by unfold CleanStr; decide)
    (by unfold CleanStr; decide) (by decide) (by decide) (by decide)
    (by unfold KeysNodup; decide) (by decide) (by decide) (by decide)
    (by decide) (by decide) (by decide) (by unfold KeysNodup; decide)

/-- Claim C7, amended: a session strictly over the threshold (300 s stream,
120 s datagram) is removed by the sweep and one at or under it is kept
unchanged.  A removed datagram session triggers the "has timed out"
broadcast to the remaining sessions only when its display name is non-empty
(an empty-name stale session is removed silently); a removed authenticated
stream session triggers the "has timed out" broadcast (no exclusion, over
the pre-removal registry) followed by the "has left the chat" departure
broadcast from `removeClient`. -/
theorem C7_reaper_sweep (ts : Str) (now : Nat) (i i2 a a2 b b3 : Nat)
    (regT regT3 : TcpReg) (regU regU2 : UdpReg)
    (c c2 cb3 : TcpClient) (ca ca2 cb : UdpClient)
    (hmemT : (i, c) ∈ regT) (hstT : 300 < now - c.lastActivity)
    (hndT : KeysNodup regT) (hmemT2 : (i2, c2) ∈ regT)
    (hfrT : now - c2.lastActivity ≤ 300)
    (hmemU : (a, ca) ∈ regU) (hstU : 120 < now - ca.lastActivity)
    (hndU : KeysNodup regU) (hmemU2 : (a2, ca2) ∈ regU)
    (hfrU : now - ca2.lastActivity ≤ 120)
    (honeU : udpStale now regU2 = [b]) (hlb : lookup b regU2 = some cb)
    (hcb : cb.username ≠ [])
    (honeT : tcpStale now regT3 = [b3]) (hlb3 : lookup b3 regT3 = some cb3)
    (hab3 : cb3.authenticated = true) (hnb3 : cb3.username ≠ []) :
    lookup i (tcpSweep ts now regT).reg = none ∧
    lookup i2 (tcpSweep ts now regT).reg = some c2 ∧
    lookup a (udpSweep ts now regU).reg = none ∧
    lookup a2 (udpSweep ts now regU).reg = some ca2 ∧
    udpSweep ts now regU2 =
      ⟨eraseEntry b regU2,
        udpBroadcast ts (cb.username ++ " has timed out".data) none
          (eraseEntry b regU2)⟩ ∧
    tcpSweep ts now regT3 =
      ⟨eraseEntry b3 regT3,
        tcpBroadcast ts (cb3.username ++ " has timed out".data) none regT3 ++
          tcpBroadcast ts (cb3.username ++ " has left the chat".data)
            (some b3) regT3⟩ := by
  refine ⟨?_, ?_, ?_, ?_, ?_, ?_⟩
  · have hmem : i ∈ tcpStale now regT :=
      List.mem_map.mpr ⟨(i, c), List.mem_filter.mpr ⟨hmemT, by
        simp only [decide_eq_true_eq]; exact hstT⟩, rfl⟩
    exact tcpSweepFold_removes ts _ _ i hmem
  · have hns : ∀ j ∈ tcpStale now regT, j ≠ i2 := by
      intro j hj hje
      rcases List.mem_map.mp hj with ⟨p, hpf, hpa⟩
      rcases List.mem_filter.mp hpf with ⟨hpm, hpc⟩
      simp only [decide_eq_true_eq] at hpc
      have hp2 : (i2, p.2) ∈ regT := by
        rw [← hje, ← hpa, Prod.mk.eta]
        exact hpm
      have := mem_unique_of_nodup i2 p.2 c2 regT hndT hp2 hmemT2
      rw [this] at hpc
      omega
    unfold tcpSweep
    rw [tcpSweepFold_keeps ts _ _ i2 hns]
    exact lookup_eq_of_mem _ _ _ hndT hmemT2
  · have hmem : a ∈ udpStale now regU :=
      List.mem_map.mpr ⟨(a, ca), List.mem_filter.mpr ⟨hmemU, by
        simp only [decide_eq_true_eq]; exact hstU⟩, rfl⟩
    exact udpSweepFold_removes ts _ _ a hmem
  · have hns : ∀ j ∈ udpStale now regU, j ≠ a2 := by
      intro j hj hje
      rcases List.mem_map.mp hj with ⟨p, hpf, hpa⟩
      rcases List.mem_filter.mp hpf with ⟨hpm, hpc⟩
      simp only [decide_eq_true_eq] at hpc
      have hp2 : (a2, p.2) ∈ regU := by
        rw [← hje, ← hpa, Prod.mk.eta]
        exact hpm
      have := mem_unique_of_nodup a2 p.2 ca2 regU hndU hp2 hmemU2
      rw [this] at hpc
      omega
    unfold udpSweep
    rw [udpSweepFold_keeps ts _ _ a2 hns]
    exact lookup_eq_of_mem _ _ _ hndU hmemU2
  · unfold udpSweep
    rw [honeU]
    simp only [List.foldl_cons, List.foldl_nil]
    unfold udpSweepStep
    rw [show (⟨regU2, []⟩ : UdpOut).reg = regU2 from rfl, hlb]
    simp only []
    rw [if_neg hcb, List.nil_append]
  · have hrc : tcpRemoveClient ts b3 regT3 =
        ⟨eraseEntry b3 regT3,
          tcpBroadcast ts (cb3.username ++ " has left the chat".data)
            (some b3) regT3⟩ := by
      unfold tcpRemoveClient
      rw [hlb3]
      simp only []
      rw [if_pos (show (cb3.authenticated && decide (cb3.username ≠ []))
          = true by rw [hab3]; simp [hnb3])]
    unfold tcpSweep
    rw [honeT]
    simp only [List.foldl_cons, List.foldl_nil]
    unfold tcpSweepStep
    rw [show (⟨regT3, []⟩ : TcpOut).reg = regT3 from rfl, hlb3, hrc]
    simp only [List.nil_append]

/-- Witness for C7 at concrete registries: one stale and one fresh session
per transport, a stale empty-check case with a non-empty name on UDP, and a
stale authenticated session on TCP. -/
theorem C7_reaper_sweep_witness :
    lookup 1 (tcpSweep "T".data 400
        [(1, ⟨"alice".data, true, true, 0⟩),
         (2, ⟨"bob".data, true, true, 400⟩)]).reg = none ∧
    lookup 2 (tcpSweep "T".data 400
        [(1, ⟨"alice".data, true, true, 0⟩),
         (2, ⟨"bob".data, true, true, 400⟩)]).reg =
      some ⟨"bob".data, true, true, 400⟩ ∧
    lookup 0 (udpSweep "T".data 400
        [(0, ⟨"u".data, 0⟩), (1, ⟨"v".data, 400⟩)]).reg = none ∧
    lookup 1 (udpSweep "T".data 400
        [(0, ⟨"u".data, 0⟩), (1, ⟨"v".data, 400⟩)]).reg =
      some ⟨"v".data, 400⟩ ∧
    udpSweep "T".data 400 [(3, ⟨"w".data, 0⟩), (4, ⟨"z".data, 400⟩)] =
      ⟨eraseEntry 3 [(3, ⟨"w".data, 0⟩), (4, ⟨"z".data, 400⟩)],
        udpBroadcast "T".data ("w".data ++ " has timed out".data) none
          (eraseEntry 3 [(3, ⟨"w".data, 0⟩), (4, ⟨"z".data, 400⟩)])⟩ ∧
    tcpSweep "T".data 400
        [(5, ⟨"x".data, true, true, 0⟩), (6, ⟨"y".data, true, true, 400⟩)] =
      ⟨eraseEntry 5 [(5, ⟨"x".data, true, true, 0⟩),
          (6, ⟨"y".data, true, true, 400⟩)],
        tcpBroadcast "T".data ("x".data ++ " has timed out".data) none
            [(5, ⟨"x".data, true, true, 0⟩),
             (6, ⟨"y".data, true, true, 400⟩)] ++
          tcpBroadcast "T".data ("x".data ++ " has left the chat".data)
            (some 5)
            [(5, ⟨"x".data, true, true, 0⟩),
             (6, ⟨"y".data, true, true, 400⟩)]⟩ :=
  C7_reaper_sweep "T".data 400 1 2 0 1 3 5
    [(1, ⟨"alice".data, true, true, 0⟩), (2, ⟨"bob".data, true, true, 400⟩)]
    [(5, ⟨"x".data, true, true, 0⟩), (6, ⟨"y".data, true, true, 400⟩)]
    [(0, ⟨"u".data, 0⟩), (1, ⟨"v".data, 400⟩)]
    [(3, ⟨"w".data, 0⟩), (4, ⟨"z".data, 400⟩)]
    ⟨"alice".data, true, true, 0⟩ ⟨"bob".data, true, true, 400⟩
    ⟨"x".data, true, true, 0⟩
    ⟨"u".data, 0⟩ ⟨"v".data, 400⟩ ⟨"w".data, 0⟩
    (by decide) (by decide) (by unfold KeysNodup; decide) (by decide)
    (by decide) (by decide) (by decide) (by unfold KeysNodup; decide)
    (by decide) (by decide) (by unfold udpStale; decide) (by decide)
    (by decide) (by unfold tcpStale; decide) (by decide) (by decide)
    (by decide)

/-- Claim C8 (confirmed): every registry operation preserves the session
invariants.  `authenticated = true` implies a non-empty display name after
accept, touch, authentication, message dispatch, removal and the reaper
sweep (on the UDP side the spec's `authenticated` is by definition a
non-empty username, so the invariant is definitionally maintained); and for
any identity present both before and after any of the operations,
`lastActivity` never decreases, given that the current clock reading is at
least every recorded activity time. -/
theorem C8_registry_invariants (fails : Nat → Bool) (ts sname raw m : Str)
    (now : Nat) (id src i a : Nat) (regT : TcpReg) (regU : UdpReg)
    (hinv : TcpInv regT) (hlaT : TcpTimesLe now regT)
    (hlaU : UdpTimesLe now regU) :
    TcpInv (tcpAccept id now regT) ∧
    TcpInv (tcpTouch id now regT) ∧
    TcpInv (tcpAuthStep fails ts now id raw regT).reg ∧
    TcpInv (tcpDispatch fails ts now sname id raw regT).reg ∧
    TcpInv (tcpRemoveClient ts id regT).reg ∧
    TcpInv (tcpSweep ts now regT).reg ∧
    TcpMonoAt regT (tcpAccept id now regT) i ∧
    TcpMonoAt regT (tcpTouch id now regT) i ∧
    TcpMonoAt regT (tcpAuthStep fails ts now id raw regT).reg i ∧
    TcpMonoAt regT (tcpDispatch fails ts now sname id raw regT).reg i ∧
    TcpMonoAt regT (tcpRemoveClient ts id regT).reg i ∧
    TcpMonoAt regT (tcpSweep ts now regT).reg i ∧
    UdpMonoAt regU (udpTouch src now regU) a ∧
    UdpMonoAt regU (udpHandleMessage fails ts now m src regU).reg a ∧
    UdpMonoAt regU (udpSweep ts now regU).reg a := by
  have hdisp : TcpInv (tcpDispatch fails ts now sname id raw regT).reg := by
    rw [tcpDispatch_reg]
    exact tcpInv_touch id now regT hinv
  exact ⟨tcpInv_accept id now regT hinv, tcpInv_touch id now regT hinv,
    tcpInv_authStep fails ts now id raw regT hinv, hdisp,
    tcpInv_removeClient ts id regT hinv, tcpInv_sweep ts now regT hinv,
    tcpMono_accept id now i regT hlaT, tcpMono_touch id now i regT hlaT,
    tcpMono_authStep fails ts now id i raw regT hlaT,
    tcpMono_dispatch fails ts now sname id i raw regT hlaT,
    tcpMono_removeClient ts id i regT, tcpMono_sweep ts now i regT,
    udpMono_touch src now a regU hlaU,
    udpMono_handle fails ts now m src a regU hlaU,
    udpMono_sweep ts now a regU⟩

/-- Witness for C8 at a concrete one-session registry per transport. -/
theorem C8_registry_invariants_witness :
    TcpInv (tcpAccept 1 100 [(1, ⟨"alice".data, true, true, 50⟩)]) ∧
    TcpInv (tcpTouch 1 100 [(1, ⟨"alice".data, true, true, 50⟩)]) ∧
    TcpInv (tcpAuthStep (fun _ => false) "T".data 100 1 "x".data
      [(1, ⟨"alice".data, true, true, 50⟩)]).reg ∧
    TcpInv (tcpDispatch (fun _ => false) "T".data 100 "alice".data 1
      "hello".data [(1, ⟨"alice".data, true, true, 50⟩)]).reg ∧
    TcpInv (tcpRemoveClient "T".data 1
      [(1, ⟨"alice".data, true, true, 50⟩)]).reg ∧
    TcpInv (tcpSweep "T".data 100 [(1, ⟨"alice".data, true, true, 50⟩)]).reg ∧
    TcpMonoAt [(1, ⟨"alice".data, true, true, 50⟩)]
      (tcpAccept 1 100 [(1, ⟨"alice".data, true, true, 50⟩)]) 1 ∧
    TcpMonoAt [(1, ⟨"alice".data, true, true, 50⟩)]
      (tcpTouch 1 100 [(1, ⟨"alice".data, true, true, 50⟩)]) 1 ∧
    TcpMonoAt [(1, ⟨"alice".data, true, true, 50⟩)]
      (tcpAuthStep (fun _ => false) "T".data 100 1 "x".data
        [(1, ⟨"alice".data, true, true, 50⟩)]).reg 1 ∧
    TcpMonoAt [(1, ⟨"alice".data, true, true, 50⟩)]
      (tcpDispatch (fun _ => false) "T".data 100 "alice".data 1 "hello".data
        [(1, ⟨"alice".data, true, true, 50⟩)]).reg 1 ∧
    TcpMonoAt [(1, ⟨"alice".data, true, true, 50⟩)]
      (tcpRemoveClient "T".data 1 [(1, ⟨"alice".data, true, true, 50⟩)]).reg 1 ∧
    TcpMonoAt [(1, ⟨"alice".data, true, true, 50⟩)]
      (tcpSweep "T".data 100 [(1, ⟨"alice".data, true, true, 50⟩)]).reg 1 ∧
    UdpMonoAt [(0, ⟨"bob".data, 40⟩)]
      (udpTouch 0 100 [(0, ⟨"bob".data, 40⟩)]) 0 ∧
    UdpMonoAt [(0, ⟨"bob".data, 40⟩)]
      (udpHandleMessage (fun _ => false) "T".data 100 "hello".data 0
        [(0, ⟨"bob".data, 40⟩)]).reg 0 ∧
    UdpMonoAt [(0, ⟨"bob".data, 40⟩)]
      (udpSweep "T".data 100 [(0, ⟨"bob".data, 40⟩)]).reg 0 :=
  C8_registry_invariants (fun _ => false) "T".data "alice".data "x".data
    "hello".data 100 1 0 1 0 [(1, ⟨"alice".data, true, true, 50⟩)]
    [(0, ⟨"bob".data, 40⟩)] (by unfold TcpInv; decide)
    (by unfold TcpTimesLe; decide) (by unfold UdpTimesLe; decide)

/-- Witness for C9 at a concrete session. -/
theorem C9_heartbeat_frame_witness :
    udpHandleMessage (fun _ => false) "T".data 10 "HEARTBEAT".data 0
        [(0, ⟨"alice".data, 5⟩)] =
      ⟨setEntry 0 ⟨"alice".data, 10⟩ [(0, ⟨"alice".data, 5⟩)], []⟩ ∧
    lookup 0 (setEntry 0 (⟨"alice".data, 10⟩ : UdpClient)
        [(0, ⟨"alice".data, 5⟩)]) = some ⟨"alice".data, 10⟩ ∧
    OthersEq 0 [(0, (⟨"alice".data, 5⟩ : UdpClient))]
      (setEntry 0 ⟨"alice".data, 10⟩ [(0, ⟨"alice".data, 5⟩)]) :=
  C9_heartbeat_frame (fun _ => false) "T".data 10 0 [(0, ⟨"alice".data, 5⟩)]
    ⟨"alice".data, 5⟩ (by decide)

end Chat
